import Mathlib

/-!
# BountyHound Local - verification of the orchestration core

Shallow embedding of the orchestration core of the `bountyhound-local`
repository, together with proofs about it.  The embedded components are:

* the target lock manager (`src/database/redis_manager.py`, `TaskQueue`);
* the priority scheduler (`src/orchestrator/scheduler.py`, `PriorityScheduler`);
* the cross-target pattern analyzer (`src/orchestrator/cross_target.py`);
* the validation pipeline (`src/workers/validator.py`, `validate_finding`);
* the JSON recovery decoder (`src/models/vllm_client.py`, `chat_json`);
* the hunt orchestrator (`src/orchestrator/brain.py`, `run_hunt`).

External collaborators (the LLM backend, the subprocess `curl`/scanner calls,
Redis and SQLite themselves) are modelled as explicit inputs: each embedded
function takes the collaborator responses as an environment value and returns
the resulting state and, where relevant, a trace of the calls it makes.
Machine integers in the source are unbounded Python integers, so they are
modelled as `Int`/`Nat`; Python floats in the scheduler are modelled as `Rat`.
-/

namespace BountyHound

/-! ## Target lock manager (`src/database/redis_manager.py`)

Redis keys `bhl:lock:{domain}` with `SET nx=True ex=ttl`.  The Redis store is
modelled as a map from domain to the absolute expiry instant of the lease; a
key exists exactly while the current time is before its expiry (Redis deletes
expired keys on access). -/

/-- The lock store: for each domain, the absolute expiry time of its lease,
if a lease was ever created. -/
def LockState : Type := String → Option Nat

/-- A lease for `d` is live at time `now` iff the stored key has not expired.
This is Redis key existence for a key written with `ex=ttl`. -/
def isLockLive (s : LockState) (d : String) (now : Nat) : Bool :=
  match s d with
  | some expiry => now < expiry
  | none => false

/-- `TaskQueue.set_target_lock(domain, ttl)`: `r.set("bhl:lock:"+domain, "1",
nx=True, ex=ttl)` — create the key only if absent, with expiry `now + ttl`;
returns whether the key was created. -/
def set_target_lock (s : LockState) (d : String) (ttl now : Nat) :
    Bool × LockState :=
  if isLockLive s d now then
    (false, s)
  else
    (true, fun d2 => if d2 = d then some (now + ttl) else s d2)

/-- `TaskQueue.release_target_lock(domain)`: `r.delete(...)` — idempotent
removal. -/
def release_target_lock (s : LockState) (d : String) : LockState :=
  fun d2 => if d2 = d then none else s d2

/-- `TaskQueue.is_target_locked(domain)`: `r.exists(...) > 0`. -/
def is_target_locked (s : LockState) (d : String) (now : Nat) : Bool :=
  isLockLive s d now

/-! ## Priority scheduler (`src/orchestrator/scheduler.py`)

`PriorityScheduler.score_target` works on Python floats; it is embedded over
`Rat`.  Timestamps are modelled as rational numbers of seconds, and the
`datetime.utcnow() - datetime.fromisoformat(last_hunt)` difference becomes
`now - last`.  Python's `round(x, 2)` rounds half to even on the multiple of
`1/100`. -/

/-- The fields of a `targets` row that `score_target` reads.  `bounty_min`,
`bounty_max` and `priority` are SQLite integers; `last_full_hunt_at` is the
stored timestamp (in seconds, `none` when never hunted); `total_findings`
is a nonnegative count. -/
structure Target where
  bounty_min : Int
  bounty_max : Int
  last_full_hunt_at : Option Rat
  total_findings : Nat
  priority : Int

/-- Round half to even to the nearest integer (Python's `round(x)` tie rule). -/
def roundHalfEven (x : Rat) : Int :=
  if Int.fract x < 1 / 2 then ⌊x⌋
  else if 1 / 2 < Int.fract x then ⌊x⌋ + 1
  else if ⌊x⌋ % 2 = 0 then ⌊x⌋ else ⌊x⌋ + 1

/-- Python's `round(x, 2)`: round half to even on the grid of hundredths. -/
def pyRound2 (x : Rat) : Rat := (roundHalfEven (x * 100) : Rat) / 100

/-- `bounty_avg = (bounty_min + bounty_max) / 2`; the midpoint of the bounty
range. -/
def bountyMid (t : Target) : Rat := ((t.bounty_min : Rat) + t.bounty_max) / 2

/-- `bounty_factor = max(bounty_avg / 1000, 0.1)`. -/
def bountyFactor (t : Target) : Rat := max (bountyMid t / 1000) (1 / 10)

/-- Staleness: `10.0` when never hunted, otherwise
`min(hours_since / 24, 10.0)` with `hours_since = (now - last) / 3600`. -/
def stalenessOf (t : Target) (now : Rat) : Rat :=
  match t.last_full_hunt_at with
  | none => 10
  | some last => min ((now - last) / 3600 / 24) 10

/-- `findings_rate = 1.0 + total_findings * 0.2`. -/
def findingsRate (t : Target) : Rat := 1 + (t.total_findings : Rat) * (2 / 10)

/-- `manual = priority / 5.0`. -/
def manualFactor (t : Target) : Rat := (t.priority : Rat) / 5

/-- The product computed by `score_target` before the final `round(score, 2)`. -/
def preScore (t : Target) (now : Rat) : Rat :=
  bountyFactor t * stalenessOf t now * findingsRate t * manualFactor t

/-- `PriorityScheduler.score_target`: the scoring formula, including the final
`round(score, 2)`. -/
def score_target (t : Target) (now : Rat) : Rat := pyRound2 (preScore t now)

/-! ## Shared string helpers -/

/-- Whether `needle` occurs as a contiguous sublist of the second argument
(Python's `needle in haystack` for strings). -/
def listContainsSub (needle : List Char) : List Char → Bool
  | [] => needle.isEmpty
  | a :: rest => needle.isPrefixOf (a :: rest) || listContainsSub needle rest

/-- Python's `pat in s` for strings. -/
def strContains (s pat : String) : Bool := listContainsSub pat.toList s.toList

/-- Python's `s.strip()`: drop leading and trailing whitespace. -/
def pyStrip (s : String) : String :=
  String.mk (((s.toList.dropWhile (·.isWhitespace)).reverse.dropWhile
    (·.isWhitespace)).reverse)

/-- Python's `s.startswith(pre)`. -/
def strStartsWith (s pre : String) : Bool := pre.toList.isPrefixOf s.toList

/-- Python's `s[:n]`. -/
def pyTake (s : String) (n : Nat) : String := String.mk (s.toList.take n)

/-- Python's `s.lower()`, characterwise. -/
def strToLower (s : String) : String := String.mk (s.toList.map Char.toLower)

/-! ## Cross-target pattern store (`src/orchestrator/cross_target.py`)

`CrossTargetAnalyzer.get_transfer_hypotheses` reads the append-only pattern
log and produces hypothesis-card drafts. -/

/-- One entry of the pattern log, as written by
`CrossTargetAnalyzer.analyze_findings`: `source_domain`, `finding_type` and
`payload` are always present; `category` is read back with
`pattern.get("category", ftype)`, so it is modelled as optional with the
finding type as its fallback. -/
structure Pattern where
  source_domain : String
  finding_type : String
  category : Option String
  payload : String
deriving DecidableEq

/-- A hypothesis-card draft as returned by `get_transfer_hypotheses`. -/
structure Hyp where
  id : String
  hypothesis : String
  category : String
  confidence : String
  reasoning : String
  test_method : String
  payload : String
  success_indicator : String
deriving DecidableEq

/-- Python's `f"{n:03d}"`. -/
def pad3 (n : Nat) : String :=
  if n < 10 then "00" ++ toString n
  else if n < 100 then "0" ++ toString n
  else toString n

/-- The direct-transfer hypothesis dict built for pattern `p` as entry
number `n` of the result list. -/
def mkDirectHyp (target : String) (p : Pattern) (n : Nat) : Hyp :=
  { id := "CT-" ++ pad3 n
  , hypothesis := p.finding_type ++ " found on " ++ p.source_domain ++
      " - test on " ++ target
  , category := p.category.getD p.finding_type
  , confidence := "medium"
  , reasoning := "Successfully exploited on " ++ p.source_domain
  , test_method := "curl"
  , payload := p.payload
  , success_indicator := "Same behavior as on " ++ p.source_domain }

/-- The `seen_types` loop of `get_transfer_hypotheses`: walk the pattern log,
emit one hypothesis per first occurrence of a nonempty finding type, numbering
entries from `k + 1`. -/
def directTransfers (target : String) : List Pattern → List String → Nat → List Hyp
  | [], _, _ => []
  | p :: rest, seen, k =>
      if p.finding_type ≠ "" ∧ p.finding_type ∉ seen then
        mkDirectHyp target p (k + 1) ::
          directTransfers target rest (p.finding_type :: seen) (k + 1)
      else directTransfers target rest seen k

/-- An entry of the static `TRANSFERABLE_PATTERNS` table. -/
structure TechPattern where
  indicator : String
  test : String
  payload : String
deriving DecidableEq

/-- `CrossTargetAnalyzer.TRANSFERABLE_PATTERNS`, in dict insertion order. -/
def TRANSFERABLE_PATTERNS : List TechPattern :=
  [ ⟨"graphql", "GraphQL introspection may be enabled",
      "\x7b\"query\":\"\x7b __schema \x7b types \x7b name \x7d \x7d \x7d\"\x7d"⟩
  , ⟨"graphql", "GraphQL aliasing for batch operations",
      "\x7b\"query\":\"\x7b a1: mutation1 \x7b id \x7d a2: mutation2 \x7b id \x7d \x7d\"\x7d"⟩
  , ⟨"api", "Sequential ID IDOR on API endpoints", "Change numeric ID in URL path"⟩
  , ⟨"jwt", "JWT algorithm none bypass", "Modify JWT header to alg:none"⟩
  , ⟨"api", "CORS origin reflection with credentials", "Origin: https://evil.com"⟩
  , ⟨"web", "Exposed admin panel at common paths",
      "/admin, /admin/login, /administrator, /wp-admin"⟩
  , ⟨"web", "Debug/dev endpoints in production",
      "/debug, /trace, /actuator, /env, /.env"⟩ ]

/-- The tech-stack hypothesis dict built for table entry `tp` as entry number
`n` of the result list. -/
def mkTechHyp (tp : TechPattern) (n : Nat) : Hyp :=
  { id := "CT-" ++ pad3 n
  , hypothesis := tp.test
  , category := "info_disclosure"
  , confidence := "low"
  , reasoning := "Tech stack includes " ++ tp.indicator ++ "-related technology"
  , test_method := "curl"
  , payload := tp.payload
  , success_indicator := "Endpoint returns meaningful data" }

/-- The tech-stack matching loop: scan the static table in order, keep entries
whose indicator occurs in some (lowercased) detected technology, numbering
entries from `k + 1`. -/
def techMatches (techLower : List String) (k : Nat) : List TechPattern → List Hyp
  | [] => []
  | tp :: rest =>
      if techLower.any (fun t => strContains t tp.indicator) then
        mkTechHyp tp (k + 1) :: techMatches techLower (k + 1) rest
      else techMatches techLower k rest

/-- `CrossTargetAnalyzer.get_transfer_hypotheses(target_domain, tech_stack)`
over the pattern log `patterns`. -/
def get_transfer_hypotheses (patterns : List Pattern) (target_domain : String)
    (tech_stack : List String) : List Hyp :=
  let target_patterns := patterns.filter (fun p => p.source_domain ≠ target_domain)
  let direct := directTransfers target_domain target_patterns [] 0
  let tech := techMatches (tech_stack.map strToLower) direct.length
    TRANSFERABLE_PATTERNS
  (direct ++ tech).take 15

/-- Spec-side counterpart of the `seen_types` loop, for the refinement
statement of the direct-transfer rule: keep, in log order, the first pattern
of each distinct nonempty finding type not yet seen. -/
def keepFirstByType : List Pattern → List String → List Pattern
  | [], _ => []
  | p :: rest, seen =>
      if p.finding_type ≠ "" ∧ p.finding_type ∉ seen then
        p :: keepFirstByType rest (p.finding_type :: seen)
      else keepFirstByType rest seen

/-- Number a pattern list into direct-transfer hypotheses starting at
`k + 1`. -/
def mapNumbered (target : String) (k : Nat) : List Pattern → List Hyp
  | [] => []
  | p :: rest => mkDirectHyp target p (k + 1) :: mapNumbered target (k + 1) rest

/-! ## Validation pipeline (`src/workers/validator.py`)

`validate_finding` runs the four-stage fail-fast pipeline.  The external
subprocess calls (`nslookup`, the three `curl` invocations) and the judgment
LLM call are modelled as an environment of responses; the function returns the
verdict, the evidence trail (`steps`), the recorded reason, the resulting
finding row fields, and whether the stage-4 judgment collaborator was
invoked. -/

/-- The fields of a `findings` row that `validate_finding` reads. -/
structure FindingRec where
  url : String
  finding_type : String
  description : String
  payload : String
  curl_command : String
  severity : String
deriving DecidableEq

/-- The JSON verdict dict returned by the judgment collaborator; each field is
`none` when the key is absent (Python `dict.get`). -/
structure Verdict where
  verdict : Option String
  evidence : Option String
  reasoning : Option String
  severity_adjustment : Option String
  adjusted_severity : Option String
deriving DecidableEq

/-- The collaborator responses consumed by one `validate_finding` run:
`nslookup` stdout, the `curl -I` result for the host, the `%{http_code}`
stdout and body stdout for the finding URL, and the judgment verdict. -/
structure ValEnv where
  dnsStdout : String
  httpRc : Int
  httpStdout : String
  endpointStdout : String
  bodyStdout : String
  verdict : Verdict
deriving DecidableEq

/-- One entry of the `steps` evidence trail. -/
structure ValStep where
  step : String
  result : String
  evidence : String
deriving DecidableEq

/-- The observable outcome of `validate_finding`: the returned status/steps/
reason, the finding row fields written to the database, and whether the
stage-4 LLM call happened. -/
structure ValOutcome where
  status : String
  steps : List ValStep
  reason : Option String
  findingStatus : String
  findingSeverity : String
  verifiedBy : String
  llmInvoked : Bool
deriving DecidableEq

/-- Stage 1 pass condition: `"Address" in stdout and "NXDOMAIN" not in
stdout`. -/
def dnsPass (env : ValEnv) : Bool :=
  strContains env.dnsStdout "Address" && ! strContains env.dnsStdout "NXDOMAIN"

/-- Stage 2 pass condition: `returncode == 0 and stdout.strip()`. -/
def httpPass (env : ValEnv) : Bool :=
  env.httpRc == 0 && pyStrip env.httpStdout != ""

/-- The status code string: `endpoint_result["stdout"].strip()`. -/
def statusCode (env : ValEnv) : String := pyStrip env.endpointStdout

/-- Stage 3 pass condition: status code starts with `2` or is `301`/`302`. -/
def endpointPass (env : ValEnv) : Bool :=
  strStartsWith (statusCode env) "2" || statusCode env == "301" || statusCode env == "302"

/-- `_check_waf`: any of the WAF indicators occurs in the lowercased
headers. -/
def check_waf (headers : String) : Bool :=
  [ "cloudflare", "akamai", "incapsula", "imperva"
  , "sucuri", "barracuda", "f5", "fortinet"
  , "attention required", "access denied", "request blocked"
  ].any (fun ind => strContains (strToLower headers) ind)

/-- `_fail_finding`: mark the finding `false_positive` (severity untouched),
record verifier and reason, return the `FALSE_POSITIVE` result. -/
def fail_finding (f : FindingRec) (steps : List ValStep) (reason : String)
    (llm : Bool) : ValOutcome :=
  { status := "FALSE_POSITIVE"
  , steps := steps
  , reason := some reason
  , findingStatus := "false_positive"
  , findingSeverity := f.severity
  , verifiedBy := "poc-validator"
  , llmInvoked := llm }

/-- `validate_finding`: the four-stage fail-fast pipeline of
`src/workers/validator.py` lines 36-126. -/
def validate_finding (f : FindingRec) (env : ValEnv) : ValOutcome :=
  let step1 : ValStep :=
    ⟨"dns", if dnsPass env then "PASS" else "FAIL", pyTake env.dnsStdout 200⟩
  if ! dnsPass env then fail_finding f [step1] "Domain does not resolve" false
  else
    let waf := check_waf env.httpStdout
    let step2 : ValStep :=
      ⟨"http", if httpPass env && ! waf then "PASS" else "FAIL", pyTake env.httpStdout 300⟩
    if ! httpPass env then
      fail_finding f [step1, step2]
        ("Host unreachable (exit " ++ toString env.httpRc ++ ")") false
    else
      let code := statusCode env
      let body := pyTake env.bodyStdout 3000
      let step3 : ValStep :=
        ⟨"endpoint", if endpointPass env then "PASS" else "FAIL",
          "HTTP " ++ code ++ ", body length: " ++ toString body.length⟩
      if ! endpointPass env && (code == "404" || code == "403" || code == "401") then
        fail_finding f [step1, step2, step3] ("Endpoint returns HTTP " ++ code) false
      else
        let v := env.verdict
        let step4 : ValStep :=
          ⟨"vuln_proof", if v.verdict == some "CONFIRMED" then "PASS" else "FAIL",
            pyTake (v.evidence.getD "") 300⟩
        if v.verdict == some "CONFIRMED" then
          { status := "CONFIRMED"
          , steps := [step1, step2, step3, step4]
          , reason := none
          , findingStatus := "verified"
          , findingSeverity :=
              if v.severity_adjustment != some "none" then
                v.adjusted_severity.getD f.severity
              else f.severity
          , verifiedBy := "poc-validator"
          , llmInvoked := true }
        else
          fail_finding f [step1, step2, step3, step4]
            (v.reasoning.getD "Not confirmed") true

/-! ## JSON recovery decoder (`src/models/vllm_client.py`)

`VLLMClient.chat_json` parses the raw LLM reply with `json.loads` and, on a
decode error, retries on the substring from the first `{` to the last `}`
(failing that, from the first `[` to the last `]`), re-raising when neither
exists.  `json.loads` is modelled by a recursive-descent reader of the JSON
fragment the collaborators emit: `null`, booleans, integers, strings without
escape sequences, arrays and objects. -/

/-- A parsed JSON value. -/
inductive JVal where
  | null : JVal
  | bool (b : Bool) : JVal
  | num (n : Int) : JVal
  | str (s : String) : JVal
  | arr (elems : List JVal) : JVal
  | obj (members : List (String × JVal)) : JVal

/-- Drop leading JSON whitespace. -/
def skipWs : List Char → List Char
  | c :: cs => if c = ' ' ∨ c = '\t' ∨ c = '\n' ∨ c = '\r' then skipWs cs else c :: cs
  | [] => []

/-- Read the characters of a string literal up to the closing quote. -/
def takeStr : List Char → Option (List Char × List Char)
  | [] => none
  | c :: cs =>
      if c = '"' then some ([], cs)
      else match takeStr cs with
        | some (s, r) => some (c :: s, r)
        | none => none

/-- Split off a maximal run of decimal digits. -/
def takeDigits : List Char → List Char × List Char
  | [] => ([], [])
  | c :: cs =>
      if c.isDigit then
        let (d, r) := takeDigits cs
        (c :: d, r)
      else ([], c :: cs)

/-- Decimal digits to a natural number. -/
def digsToNat (ds : List Char) : Nat :=
  ds.foldl (fun a c => a * 10 + (c.toNat - '0'.toNat)) 0

mutual

/-- Parse one JSON value (fuel-indexed recursive descent). -/
def parseVal : Nat → List Char → Option (JVal × List Char)
  | 0, _ => none
  | Nat.succ fu, cs =>
    match skipWs cs with
    | [] => none
    | c :: rest =>
      if c = 'n' then
        match rest with
        | 'u' :: 'l' :: 'l' :: r => some (.null, r)
        | _ => none
      else if c = 't' then
        match rest with
        | 'r' :: 'u' :: 'e' :: r => some (.bool true, r)
        | _ => none
      else if c = 'f' then
        match rest with
        | 'a' :: 'l' :: 's' :: 'e' :: r => some (.bool false, r)
        | _ => none
      else if c = '"' then
        match takeStr rest with
        | some (s, r) => some (.str (String.mk s), r)
        | none => none
      else if c = '[' then
        match skipWs rest with
        | ']' :: r3 => some (.arr [], r3)
        | r2 =>
          match parseElems fu r2 with
          | some (vs, r3) => some (.arr vs, r3)
          | none => none
      else if c = '{' then
        match skipWs rest with
        | '}' :: r3 => some (.obj [], r3)
        | r2 =>
          match parseMembers fu r2 with
          | some (ms, r3) => some (.obj ms, r3)
          | none => none
      else if c = '-' then
        match takeDigits rest with
        | ([], _) => none
        | (ds, r) => some (.num (-(digsToNat ds : Int)), r)
      else if c.isDigit then
        match takeDigits (c :: rest) with
        | (ds, r) => some (.num (digsToNat ds : Int), r)
      else none

/-- Parse the comma-separated elements of an array, up to `]`. -/
def parseElems : Nat → List Char → Option (List JVal × List Char)
  | 0, _ => none
  | Nat.succ fu, cs =>
    match parseVal fu cs with
    | none => none
    | some (v, r) =>
      match skipWs r with
      | ',' :: r2 =>
        match parseElems fu r2 with
        | some (vs, r3) => some (v :: vs, r3)
        | none => none
      | ']' :: r2 => some ([v], r2)
      | _ => none

/-- Parse the comma-separated members of an object, up to `}`. -/
def parseMembers : Nat → List Char → Option (List (String × JVal) × List Char)
  | 0, _ => none
  | Nat.succ fu, cs =>
    match skipWs cs with
    | '"' :: rest =>
      match takeStr rest with
      | none => none
      | some (k, r) =>
        match skipWs r with
        | ':' :: r2 =>
          match parseVal fu r2 with
          | none => none
          | some (v, r3) =>
            match skipWs r3 with
            | ',' :: r4 =>
              match parseMembers fu r4 with
              | some (ms, r5) => some ((String.mk k, v) :: ms, r5)
              | none => none
            | '}' :: r4 => some ([(String.mk k, v)], r4)
            | _ => none
        | _ => none
    | _ => none

end

/-- Model of `json.loads`: parse one value and require only whitespace to
remain. -/
def loads (s : String) : Option JVal :=
  match parseVal (2 * s.length + 4) s.toList with
  | some (v, r) => if (skipWs r).isEmpty then some v else none
  | none => none

/-- Python `str.find(ch)`: index of the first occurrence, `-1` if absent. -/
def pyFind (s : String) (c : Char) : Int :=
  match s.toList.findIdx? (· = c) with
  | some i => (i : Int)
  | none => -1

/-- Python `str.rfind(ch)`: index of the last occurrence, `-1` if absent. -/
def pyRFind (s : String) (c : Char) : Int :=
  match s.toList.reverse.findIdx? (· = c) with
  | some i => (s.length : Int) - 1 - i
  | none => -1

/-- Python `s[a:b]` for `0 ≤ a ≤ b`. -/
def pySlice (s : String) (a b : Int) : String :=
  String.mk ((s.toList.drop a.toNat).take (b - a).toNat)

/-- The result of a `json.loads` call whose exception propagates: `ok` on a
successful parse, the `JSONDecodeError` otherwise. -/
def loadsExc (o : Option JVal) : Except String JVal :=
  match o with
  | some v => .ok v
  | none => .error "json.decoder.JSONDecodeError"

/-- `VLLMClient.chat_json`, lines 78-92: parse the raw reply; on failure try
`raw[raw.find("\x7b") : raw.rfind("\x7d") + 1]`, then
`raw[raw.find("[") : raw.rfind("]") + 1]`, and re-raise when neither span
exists.  A parse failure on an extracted span propagates. -/
def chat_json (raw : String) : Except String JVal :=
  match loads raw with
  | some v => .ok v
  | none =>
    let start := pyFind raw '{'
    let stop := pyRFind raw '}' + 1
    if start ≥ 0 ∧ stop > start then loadsExc (loads (pySlice raw start stop))
    else
      let start2 := pyFind raw '['
      let stop2 := pyRFind raw ']' + 1
      if start2 ≥ 0 ∧ stop2 > start2 then loadsExc (loads (pySlice raw start2 stop2))
      else .error "json.decoder.JSONDecodeError"

/-! ## Hunt orchestrator (`src/orchestrator/brain.py`, `run_hunt`)

`run_hunt` is straight-line code over the SQLite tables and the Redis lock,
with one conditional branch (the gap-triggered second wave) and one `try /
finally` releasing the lock.  The database rows of the one hunt being run are
the state; the collaborator tasks (recon, discovery, the scanner, the
exploitation worker, the validator, the reporter) are an environment of
responses.  The function returns the task's return value, the final state,
and the trace of collaborator calls and `FindingDB.get_by_hunt` reads it
makes, in program order. -/

/-- A `hypothesis_cards` row (the fields the orchestrator reads). -/
structure CardRow where
  id : Nat
  confidence : String
  status : String
deriving DecidableEq

/-- A `findings` row (the fields the orchestrator reads). -/
structure FindingRow where
  id : Nat
  status : String
deriving DecidableEq

/-- The `hunts` row of the hunt being run. -/
structure HuntRow where
  status : String
  phase : String
  error : Option String
  completed_at : Option String
  findings_count : Nat
deriving DecidableEq

/-- The `targets` row of the target being hunted (the fields `run_hunt`
writes). -/
structure TargetRow where
  domain : String
  total_findings : Nat
  last_full_hunt_at : Option String
deriving DecidableEq

/-- The database and Redis state touched by one `run_hunt` execution:
the target lock, the hunt row (absent until `HuntDB.create`), this hunt's
hypothesis cards and findings, the target row, and the two global Redis
counters. -/
structure DBState where
  locked : Bool
  hunt : Option HuntRow
  cards : List CardRow
  findings : List FindingRow
  target : TargetRow
  hunts_completed : Nat
  findings_total : Nat
deriving DecidableEq

/-- The collaborator responses consumed by one `run_hunt` execution.
`reconError` is the recon worker's error (if any); `firstWaveCards` and
`gapCards` are the card batches the discovery worker persists;
`cardFindings` gives the findings the exploitation worker records when
testing a card; `scanTimedOut` says whether `scan_task.get(timeout=900)`
times out, and `scanFindings` the findings the scan recorded otherwise;
`confirmVerdict` is the validator's verdict per finding; `reportEligible`
says whether the reporter marks a finding reported; `now` is the
`datetime.utcnow().isoformat()` timestamp at completion. -/
structure HuntEnv where
  reconError : Option String
  firstWaveCards : List CardRow
  cardFindings : Nat → List FindingRow
  scanTimedOut : Bool
  scanFindings : List FindingRow
  gapCards : List CardRow
  confirmVerdict : Nat → Bool
  reportEligible : Nat → Bool
  now : String

/-- The trace events of one `run_hunt` execution: collaborator invocations
and the `FindingDB.get_by_hunt` reads (with the number of rows read). -/
inductive Ev where
  | reconEv : Ev
  | discoveryEv : Ev
  | scanDispatchEv : Ev
  | testEv (cardId : Nat) : Ev
  | scanAwaitEv : Ev
  | readFindingsEv (n : Nat) : Ev
  | gapEv : Ev
  | validateEv (findingId : Nat) : Ev
  | reportEv (findingId : Nat) : Ev
  | summaryEv : Ev
  | crossEv : Ev
deriving DecidableEq

/-- The value `run_hunt` produces: the returned status dict, or the
`TimeoutError` escaping from `scan_task.get`. -/
inductive HuntRes where
  | skipped : HuntRes
  | failed (phase : String) (error : String) : HuntRes
  | timedOut : HuntRes
  | complete (total_findings verified reported : Nat) : HuntRes
deriving DecidableEq

/-- The `ORDER BY CASE confidence ...` rank of `HypothesisDB.get_pending`. -/
def confRank (c : String) : Nat :=
  if c = "high" then 1 else if c = "medium" then 2 else 3

/-- Stable insertion for the confidence sort. -/
def insertByRank (c : CardRow) : List CardRow → List CardRow
  | [] => [c]
  | d :: ds =>
      if confRank d.confidence ≤ confRank c.confidence then d :: insertByRank c ds
      else c :: d :: ds

/-- Stable sort by confidence rank (high, medium, then the rest). -/
def sortByRank : List CardRow → List CardRow
  | [] => []
  | c :: cs => insertByRank c (sortByRank cs)

/-- `HypothesisDB.get_pending(hunt_id)`: this hunt's pending cards, ordered
by confidence. -/
def get_pending (st : DBState) : List CardRow :=
  sortByRank (st.cards.filter (fun c => c.status = "pending"))

/-- `HypothesisDB.create_batch`: rows are inserted with the `status` column
default `'pending'`. -/
def persistCards (l : List CardRow) : List CardRow :=
  l.map (fun c => { c with status := "pending" })

/-- `FindingDB.create`: rows are inserted with the `status` column default
`'unverified'`. -/
def persistFindings (l : List FindingRow) : List FindingRow :=
  l.map (fun f => { f with status := "unverified" })

/-- `HuntDB.update` on the hunt row. -/
def setHunt (st : DBState) (f : HuntRow → HuntRow) : DBState :=
  { st with hunt := st.hunt.map f }

/-- `HypothesisDB.update(card_id, status="tested")`. -/
def markTested (cid : Nat) (l : List CardRow) : List CardRow :=
  l.map (fun c => if c.id = cid then { c with status := "tested" } else c)

/-- Modelled from the spec: the exploitation worker
(`src/workers/exploit.py`, `test_hypothesis_browser`) is absent from the
sources.  Per the spec, the testing phase "sequentially test[s] every pending
HypothesisCard via the exploitation collaborator, accumulating Findings", and
a card's lifecycle status moves `pending → tested` when consumed.  The
findings recorded while testing a card are supplied by the `cardFindings`
oracle. -/
def testCards (env : HuntEnv) (cards : List CardRow) (st : DBState) :
    DBState × List Ev :=
  match cards with
  | [] => (st, [])
  | c :: rest =>
      let st1 := { st with
        cards := markTested c.id st.cards
        findings := st.findings ++ persistFindings (env.cardFindings c.id) }
      let out := testCards env rest st1
      (out.1, Ev.testEv c.id :: out.2)

/-- The validation loop of phase 4: each unverified finding goes through the
validator (abstracted here to its verdict, which sets the finding's status);
returns the state, the trace, and `verified_count`. -/
def validateAll (env : HuntEnv) (fs : List FindingRow) (st : DBState) :
    DBState × List Ev × Nat :=
  match fs with
  | [] => (st, [], 0)
  | f :: rest =>
      let confirmed := env.confirmVerdict f.id
      let st1 := { st with findings := st.findings.map (fun g =>
        if g.id = f.id then
          { g with status := if confirmed then "verified" else "false_positive" }
        else g) }
      let out := validateAll env rest st1
      (out.1, Ev.validateEv f.id :: out.2.1, (if confirmed then 1 else 0) + out.2.2)

/-- The reporting loop: `generate_report` per verified finding; when the
reporter deems it eligible it marks the finding `reported`
(`src/workers/reporter.py` line 95). -/
def reportAll (env : HuntEnv) (fs : List FindingRow) (st : DBState) :
    DBState × List Ev :=
  match fs with
  | [] => (st, [])
  | f :: rest =>
      let st1 :=
        if env.reportEligible f.id then
          { st with findings := st.findings.map (fun g =>
              if g.id = f.id then { g with status := "reported" } else g) }
        else st
      let out := reportAll env rest st1
      (out.1, Ev.reportEv f.id :: out.2)

/-- Phases 4 to completion of `run_hunt`: validate this hunt's unverified
findings, report the verified ones, then mark the hunt complete, update the
target row (`last_full_hunt_at` and `total_findings=len(verified)`), and bump
the global counters. -/
def finishHunt (env : HuntEnv) (st : DBState) (tr : List Ev) (allCount : Nat) :
    HuntRes × DBState × List Ev :=
  let st := setHunt st (fun h => { h with phase := "validation" })
  let unver := st.findings.filter (fun f => f.status = "unverified")
  let va := validateAll env unver st
  let st := va.1
  let tr := tr ++ va.2.1
  let verified_count := va.2.2
  let st := setHunt st (fun h => { h with phase := "reporting" })
  let verified := st.findings.filter (fun f => f.status = "verified")
  let ra := reportAll env verified st
  let st := ra.1
  let tr := tr ++ ra.2 ++ [Ev.summaryEv, Ev.crossEv]
  let st := setHunt st (fun h =>
    { h with
      status := "complete"
      completed_at := some env.now
      findings_count := verified_count })
  let st := { st with target := { st.target with
    last_full_hunt_at := some env.now
    total_findings := verified.length } }
  let st := { st with
    hunts_completed := st.hunts_completed + 1
    findings_total := st.findings_total + verified_count }
  (.complete allCount verified_count verified.length, st, tr)

/-- Phase 3 (sync) of `run_hunt`: read this hunt's findings; when none exist
run the gap-triggered second wave (new cards, re-run of the card-testing
track, re-read of the findings), then continue with phases 4+. -/
def syncPhase (env : HuntEnv) (st : DBState) (tr : List Ev) :
    HuntRes × DBState × List Ev :=
  let st := setHunt st (fun h => { h with phase := "sync" })
  let found := st.findings
  let tr := tr ++ [Ev.readFindingsEv found.length]
  if found.isEmpty then
    let st := { st with cards := st.cards ++ persistCards env.gapCards }
    let second := get_pending st
    let tb2 := testCards env second st
    let st := tb2.1
    let tr := tr ++ Ev.gapEv :: tb2.2 ++ [Ev.readFindingsEv st.findings.length]
    finishHunt env st tr st.findings.length
  else finishHunt env st tr found.length

/-- The body of `run_hunt` inside the `try`, entered with the lock held:
create the hunt row and run phases 1 (recon), 1.5 (discovery) and 2 (parallel
testing), then hand over to the sync phase; a recon error fails the hunt, and
a scan timeout escapes as an exception with the hunt row left as it was. -/
def huntBody (env : HuntEnv) (st : DBState) : HuntRes × DBState × List Ev :=
  let st := { st with hunt := some ⟨"running", "recon", none, none, 0⟩ }
  let st := setHunt st (fun h => { h with phase := "recon" })
  match env.reconError with
  | some e =>
      (.failed "recon" e,
        setHunt st (fun h => { h with status := "failed", error := some e }),
        [Ev.reconEv])
  | none =>
      let st := setHunt st (fun h => { h with phase := "discovery" })
      let st := { st with cards := st.cards ++ persistCards env.firstWaveCards }
      let st := setHunt st (fun h => { h with phase := "testing" })
      let cards := get_pending st
      let tb := testCards env cards st
      let st := tb.1
      let tr := Ev.reconEv :: Ev.discoveryEv :: Ev.scanDispatchEv :: tb.2 ++ [Ev.scanAwaitEv]
      if env.scanTimedOut then (.timedOut, st, tr)
      else
        let st := { st with findings := st.findings ++ persistFindings env.scanFindings }
        syncPhase env st tr

/-- `run_hunt(target_id)`: acquire the target lock (skip when already held),
run the hunt body, and release the lock in the `finally` block on every exit
path. -/
def run_hunt (env : HuntEnv) (st : DBState) : HuntRes × DBState × List Ev :=
  if st.locked then (.skipped, st, [])
  else
    let st := { st with locked := true }
    let out := huntBody env st
    (out.1, { out.2.1 with locked := false }, out.2.2)

/-- The row count of the first `FindingDB.get_by_hunt` read in a trace (the
sync-phase read). -/
def firstReadCount : List Ev → Option Nat
  | [] => none
  | Ev.readFindingsEv n :: _ => some n
  | _ :: tr => firstReadCount tr

/-- A fresh database state for a single hunt: lock free, no hunt row yet, no
cards or findings for the hunt, and a target with three previously recorded
verified findings. -/
def stFresh : DBState :=
  { locked := false, hunt := none, cards := [], findings := []
  , target := ⟨"acme.example", 3, none⟩
  , hunts_completed := 0, findings_total := 0 }

/-- An environment whose scan sub-task times out. -/
def envTimedOut : HuntEnv :=
  { reconError := none
  , firstWaveCards := [⟨1, "high", ""⟩]
  , cardFindings := fun _ => []
  , scanTimedOut := true
  , scanFindings := []
  , gapCards := []
  , confirmVerdict := fun _ => true
  , reportEligible := fun _ => false
  , now := "2026-01-01T00:00:00" }

/-- An environment where testing card 1 records finding 10, which the
validator confirms. -/
def envOneFinding : HuntEnv :=
  { reconError := none
  , firstWaveCards := [⟨1, "high", ""⟩]
  , cardFindings := fun i => if i = 1 then [⟨10, ""⟩] else []
  , scanTimedOut := false
  , scanFindings := []
  , gapCards := []
  , confirmVerdict := fun _ => true
  , reportEligible := fun _ => false
  , now := "2026-01-01T00:00:00" }

/-- An environment where neither the first-wave card tests nor the scan nor
the second wave record any finding; one gap card is generated. -/
def envNoFindings : HuntEnv :=
  { reconError := none
  , firstWaveCards := [⟨1, "high", ""⟩]
  , cardFindings := fun _ => []
  , scanTimedOut := false
  , scanFindings := []
  , gapCards := [⟨5, "low", ""⟩]
  , confirmVerdict := fun _ => true
  , reportEligible := fun _ => false
  , now := "2026-01-01T00:00:00" }

/-! # Theorems -/

/-- C1: `set_target_lock` has test-and-set semantics — it succeeds exactly
when no live lease exists for the domain, and after a successful acquire any
second acquire for the same domain issued while the first lease is live
(before `t1 + ttl`) returns false.  Hence of two concurrent acquires for the
same target at most one succeeds while the first's lease is live, and at most
one live lock per target identity exists at any time. -/
theorem C1_lock_acquire_mutex (s : LockState) (d : String) (ttl t1 t2 : Nat) :
    ((set_target_lock s d ttl t1).1 = true ↔ isLockLive s d t1 = false) ∧
    ((set_target_lock s d ttl t1).1 = true → t2 < t1 + ttl →
      (set_target_lock (set_target_lock s d ttl t1).2 d ttl t2).1 = false) := by
  constructor
  · cases hb : isLockLive s d t1 <;> simp [set_target_lock, hb]
  · intro h1 h2
    cases hb : isLockLive s d t1 with
    | true => simp [set_target_lock, hb] at h1
    | false =>
      have hset : set_target_lock s d ttl t1 =
          (true, fun d2 => if d2 = d then some (t1 + ttl) else s d2) := by
        simp [set_target_lock, hb]
      rw [hset]
      have hlive : isLockLive
          (fun d2 => if d2 = d then some (t1 + ttl) else s d2) d t2 = true := by
        simp [isLockLive, h2]
      simp [set_target_lock, hlive]

/-- C1 witness: on an empty store, the first acquire of `example.com` at time
0 with a 7200-second lease succeeds, and a second acquire at time 10 fails. -/
theorem C1_lock_acquire_mutex_witness :
    (set_target_lock (fun _ => none) "example.com" 7200 0).1 = true ∧
    (set_target_lock
      (set_target_lock (fun _ => none) "example.com" 7200 0).2
      "example.com" 7200 10).1 = false := by
  refine ⟨by rfl, ?_⟩
  exact (C1_lock_acquire_mutex (fun _ => none) "example.com" 7200 0 10).2
    (by rfl) (by norm_num)

/-- Round-half-even is monotone. -/
theorem roundHalfEven_mono {x y : Rat} (h : x ≤ y) :
    roundHalfEven x ≤ roundHalfEven y := by
  have hf : ⌊x⌋ ≤ ⌊y⌋ := Int.floor_mono h
  by_cases heq : ⌊x⌋ = ⌊y⌋
  · have hfr : Int.fract x ≤ Int.fract y := by
      unfold Int.fract
      rw [heq]
      linarith
    unfold roundHalfEven
    rw [heq]
    split_ifs <;> first | omega | linarith
  · have hlt : ⌊x⌋ < ⌊y⌋ := lt_of_le_of_ne hf heq
    have h1 : roundHalfEven x ≤ ⌊x⌋ + 1 := by
      unfold roundHalfEven; split_ifs <;> omega
    have h2 : ⌊y⌋ ≤ roundHalfEven y := by
      unfold roundHalfEven; split_ifs <;> omega
    omega

/-- `round(x, 2)` is monotone. -/
theorem pyRound2_mono {x y : Rat} (h : x ≤ y) : pyRound2 x ≤ pyRound2 y := by
  unfold pyRound2
  have h1 : x * 100 ≤ y * 100 := by linarith
  have h2 := roundHalfEven_mono h1
  have h3 : ((roundHalfEven (x * 100) : Int) : Rat) ≤
      ((roundHalfEven (y * 100) : Int) : Rat) := by exact_mod_cast h2
  linarith

/-- The bounty factor is floored at `0.1`, hence positive. -/
theorem bountyFactor_pos (t : Target) : 0 < bountyFactor t :=
  lt_of_lt_of_le (by norm_num) (le_max_right _ _)

/-- The findings rate is at least 1, hence positive. -/
theorem findingsRate_pos (t : Target) : 0 < findingsRate t := by
  unfold findingsRate
  have : (0 : Rat) ≤ (t.total_findings : Rat) := Nat.cast_nonneg _
  linarith

/-- C6 (amended): the pre-rounding score is strictly increasing in the bounty
midpoint (above the 0.1 floor), in staleness (up to the 10.0 cap) and in
manual priority, holding the other inputs fixed; after the final
`round(score, 2)` the returned score is only weakly increasing in each, since
the two-decimal rounding can collapse scores of nearby inputs. -/
theorem C6_score_monotone_amended :
    (∀ t1 t2 : Target, ∀ now : Rat,
      t1.last_full_hunt_at = t2.last_full_hunt_at →
      t1.total_findings = t2.total_findings →
      t1.priority = t2.priority →
      100 ≤ bountyMid t1 → bountyMid t1 < bountyMid t2 →
      0 < stalenessOf t1 now → 0 < t1.priority →
      preScore t1 now < preScore t2 now ∧
        score_target t1 now ≤ score_target t2 now) ∧
    (∀ t1 t2 : Target, ∀ now l1 l2 : Rat,
      t1.bounty_min = t2.bounty_min → t1.bounty_max = t2.bounty_max →
      t1.total_findings = t2.total_findings →
      t1.priority = t2.priority →
      t1.last_full_hunt_at = some l1 → t2.last_full_hunt_at = some l2 →
      now - l1 < now - l2 → (now - l2) / 3600 / 24 ≤ 10 →
      0 < t1.priority →
      preScore t1 now < preScore t2 now ∧
        score_target t1 now ≤ score_target t2 now) ∧
    (∀ t1 t2 : Target, ∀ now : Rat,
      t1.bounty_min = t2.bounty_min → t1.bounty_max = t2.bounty_max →
      t1.last_full_hunt_at = t2.last_full_hunt_at →
      t1.total_findings = t2.total_findings →
      0 < t1.priority → t1.priority < t2.priority →
      0 < stalenessOf t1 now →
      preScore t1 now < preScore t2 now ∧
        score_target t1 now ≤ score_target t2 now) := by
  refine ⟨?_, ?_, ?_⟩
  · intro t1 t2 now hl ht hp h100 hlt hs hpr
    have hb1 : bountyFactor t1 = bountyMid t1 / 1000 := by
      unfold bountyFactor; exact max_eq_left (by linarith)
    have hb2 : bountyFactor t2 = bountyMid t2 / 1000 := by
      unfold bountyFactor; exact max_eq_left (by linarith)
    have hbf : bountyFactor t1 < bountyFactor t2 := by
      rw [hb1, hb2]; linarith
    have hss : stalenessOf t1 now = stalenessOf t2 now := by
      unfold stalenessOf; rw [hl]
    have hfr : findingsRate t1 = findingsRate t2 := by
      unfold findingsRate; rw [ht]
    have hm : manualFactor t1 = manualFactor t2 := by
      unfold manualFactor; rw [hp]
    have hm_pos : 0 < manualFactor t1 := by
      unfold manualFactor
      have : (0 : Rat) < (t1.priority : Rat) := by exact_mod_cast hpr
      linarith
    have hpre : preScore t1 now < preScore t2 now := by
      unfold preScore
      rw [← hss, ← hfr, ← hm]
      exact mul_lt_mul_of_pos_right
        (mul_lt_mul_of_pos_right
          (mul_lt_mul_of_pos_right hbf hs) (findingsRate_pos t1)) hm_pos
    exact ⟨hpre, pyRound2_mono hpre.le⟩
  · intro t1 t2 now l1 l2 hmn hmx ht hp hl1 hl2 hlt hcap hpr
    have hs : stalenessOf t1 now < stalenessOf t2 now := by
      unfold stalenessOf
      rw [hl1, hl2]
      show min ((now - l1) / 3600 / 24) 10 < min ((now - l2) / 3600 / 24) 10
      have e1 : (now - l1) / 3600 / 24 = (now - l1) * (1 / 86400) := by ring
      have e2 : (now - l2) / 3600 / 24 = (now - l2) * (1 / 86400) := by ring
      have hdiv : (now - l1) / 3600 / 24 < (now - l2) / 3600 / 24 := by
        rw [e1, e2]
        exact mul_lt_mul_of_pos_right hlt (by norm_num)
      rw [min_eq_left hcap]
      exact lt_of_le_of_lt (min_le_left _ _) hdiv
    have hbf : bountyFactor t1 = bountyFactor t2 := by
      unfold bountyFactor bountyMid; rw [hmn, hmx]
    have hfr : findingsRate t1 = findingsRate t2 := by
      unfold findingsRate; rw [ht]
    have hm : manualFactor t1 = manualFactor t2 := by
      unfold manualFactor; rw [hp]
    have hm_pos : 0 < manualFactor t1 := by
      unfold manualFactor
      have : (0 : Rat) < (t1.priority : Rat) := by exact_mod_cast hpr
      linarith
    have hpre : preScore t1 now < preScore t2 now := by
      unfold preScore
      rw [← hbf, ← hfr, ← hm]
      exact mul_lt_mul_of_pos_right
        (mul_lt_mul_of_pos_right
          (mul_lt_mul_of_pos_left hs (bountyFactor_pos t1)) (findingsRate_pos t1))
        hm_pos
    exact ⟨hpre, pyRound2_mono hpre.le⟩
  · intro t1 t2 now hmn hmx hl ht hpr hlt hs
    have hbf : bountyFactor t1 = bountyFactor t2 := by
      unfold bountyFactor bountyMid; rw [hmn, hmx]
    have hss : stalenessOf t1 now = stalenessOf t2 now := by
      unfold stalenessOf; rw [hl]
    have hfr : findingsRate t1 = findingsRate t2 := by
      unfold findingsRate; rw [ht]
    have hm : manualFactor t1 < manualFactor t2 := by
      unfold manualFactor
      have : (t1.priority : Rat) < (t2.priority : Rat) := by exact_mod_cast hlt
      linarith
    have hX : 0 < bountyFactor t1 * stalenessOf t1 now * findingsRate t1 :=
      mul_pos (mul_pos (bountyFactor_pos t1) hs) (findingsRate_pos t1)
    have hpre : preScore t1 now < preScore t2 now := by
      unfold preScore
      rw [← hbf, ← hss, ← hfr]
      exact mul_lt_mul_of_pos_left hm hX
    exact ⟨hpre, pyRound2_mono hpre.le⟩

/-- C6 counterexample: two targets identical except for the bounty midpoint
(500 vs 500.5, both above the 0.1 floor), hunted one hour before `now`, get
the same returned score (both round to 0.0), so `score_target` as returned is
not strictly increasing in the bounty midpoint. -/
theorem C6_strict_cex :
    bountyMid ⟨0, 1000, some 0, 0, 1⟩ < bountyMid ⟨0, 1001, some 0, 0, 1⟩ ∧
    100 ≤ bountyMid ⟨0, 1000, some 0, 0, 1⟩ ∧
    0 < stalenessOf ⟨0, 1000, some 0, 0, 1⟩ 3600 ∧
    (0 : Int) < 1 ∧
    score_target ⟨0, 1000, some 0, 0, 1⟩ 3600 =
      score_target ⟨0, 1001, some 0, 0, 1⟩ 3600 ∧
    ¬ score_target ⟨0, 1000, some 0, 0, 1⟩ 3600 <
        score_target ⟨0, 1001, some 0, 0, 1⟩ 3600 := by
  refine ⟨?_, ?_, ?_, ?_, ?_, ?_⟩ <;>
    norm_num [score_target, preScore, bountyFactor, bountyMid, stalenessOf,
      findingsRate, manualFactor, pyRound2, roundHalfEven, Int.fract,
      min_def, max_def]

/-- C6 witness: the amended monotonicity applied at concrete targets — bounty
midpoint 100 vs 200 (never hunted, priority 5); one hour ago vs two hours ago
(both below the cap); priority 1 vs 2 (never hunted). -/
theorem C6_score_monotone_witness :
    (preScore ⟨0, 200, none, 0, 5⟩ 0 < preScore ⟨0, 400, none, 0, 5⟩ 0 ∧
      score_target ⟨0, 200, none, 0, 5⟩ 0 ≤ score_target ⟨0, 400, none, 0, 5⟩ 0) ∧
    (preScore ⟨0, 0, some 3600, 0, 5⟩ 7200 < preScore ⟨0, 0, some 0, 0, 5⟩ 7200 ∧
      score_target ⟨0, 0, some 3600, 0, 5⟩ 7200 ≤
        score_target ⟨0, 0, some 0, 0, 5⟩ 7200) ∧
    (preScore ⟨0, 0, none, 0, 1⟩ 0 < preScore ⟨0, 0, none, 0, 2⟩ 0 ∧
      score_target ⟨0, 0, none, 0, 1⟩ 0 ≤ score_target ⟨0, 0, none, 0, 2⟩ 0) := by
  refine ⟨?_, ?_, ?_⟩
  · exact C6_score_monotone_amended.1 ⟨0, 200, none, 0, 5⟩ ⟨0, 400, none, 0, 5⟩ 0
      rfl rfl rfl (by norm_num [bountyMid]) (by norm_num [bountyMid])
      (by norm_num [stalenessOf]) (by norm_num)
  · exact C6_score_monotone_amended.2.1 ⟨0, 0, some 3600, 0, 5⟩ ⟨0, 0, some 0, 0, 5⟩
      7200 3600 0 rfl rfl rfl rfl rfl rfl (by norm_num) (by norm_num) (by norm_num)
  · exact C6_score_monotone_amended.2.2 ⟨0, 0, none, 0, 1⟩ ⟨0, 0, none, 0, 2⟩ 0
      rfl rfl rfl rfl (by norm_num) (by norm_num) (by norm_num [stalenessOf])

/-- The `seen_types` loop is the numbered image of `keepFirstByType`. -/
theorem directTransfers_eq (target : String) (l : List Pattern) :
    ∀ (seen : List String) (k : Nat),
      directTransfers target l seen k =
        mapNumbered target k (keepFirstByType l seen) := by
  induction l with
  | nil => intro seen k; rfl
  | cons p rest ih =>
    intro seen k
    by_cases h : p.finding_type ≠ "" ∧ p.finding_type ∉ seen
    · rw [directTransfers, if_pos h, keepFirstByType, if_pos h, mapNumbered, ih]
    · rw [directTransfers, if_neg h, keepFirstByType, if_neg h, ih]

/-- Every pattern kept by `keepFirstByType` has a nonempty type not in
`seen`, and is the first pattern of its finding type in the input list. -/
theorem keepFirstByType_mem (l : List Pattern) :
    ∀ seen, ∀ p ∈ keepFirstByType l seen,
      p.finding_type ≠ "" ∧ p.finding_type ∉ seen ∧
        l.find? (fun q => q.finding_type == p.finding_type) = some p := by
  induction l with
  | nil => intro seen p hp; simp [keepFirstByType] at hp
  | cons c rest ih =>
    intro seen p hp
    by_cases h : c.finding_type ≠ "" ∧ c.finding_type ∉ seen
    · rw [keepFirstByType, if_pos h] at hp
      rcases List.mem_cons.mp hp with rfl | hp2
      · exact ⟨h.1, h.2, List.find?_cons_of_pos rest (by simp)⟩
      · obtain ⟨h1, h2, h3⟩ := ih (c.finding_type :: seen) p hp2
        have hne : c.finding_type ≠ p.finding_type := by
          intro e
          exact h2 (by rw [← e]; exact List.mem_cons_self _ _)
        exact ⟨h1, fun hs => h2 (List.mem_cons_of_mem _ hs),
          by rw [List.find?_cons_of_neg rest (by simp [hne]), h3]⟩
    · rw [keepFirstByType, if_neg h] at hp
      obtain ⟨h1, h2, h3⟩ := ih seen p hp
      have hne : c.finding_type ≠ p.finding_type := by
        intro e
        rcases not_and_or.mp h with h4 | h4
        · exact h1 (by rw [← e]; exact not_not.mp h4)
        · exact h2 (e ▸ not_not.mp h4)
      exact ⟨h1, h2, by rw [List.find?_cons_of_neg rest (by simp [hne]), h3]⟩

/-- `keepFirstByType` emits at most one pattern per finding type. -/
theorem keepFirstByType_nodup (l : List Pattern) :
    ∀ seen, ((keepFirstByType l seen).map (fun p => p.finding_type)).Nodup := by
  induction l with
  | nil => intro seen; simp [keepFirstByType]
  | cons c rest ih =>
    intro seen
    by_cases h : c.finding_type ≠ "" ∧ c.finding_type ∉ seen
    · rw [keepFirstByType, if_pos h]
      simp only [List.map_cons, List.nodup_cons]
      refine ⟨?_, ih _⟩
      intro hmem
      obtain ⟨p, hp, he⟩ := List.mem_map.mp hmem
      obtain ⟨_, h2, _⟩ := keepFirstByType_mem rest (c.finding_type :: seen) p hp
      exact h2 (he ▸ List.mem_cons_self _ _)
    · rw [keepFirstByType, if_neg h]; exact ih seen

/-- Direct-transfer entries all carry medium confidence. -/
theorem mapNumbered_conf (target : String) (l : List Pattern) :
    ∀ k, ∀ h ∈ mapNumbered target k l, h.confidence = "medium" := by
  induction l with
  | nil => intro k h hh; simp [mapNumbered] at hh
  | cons p rest ih =>
    intro k h hh
    rcases List.mem_cons.mp hh with rfl | hh2
    · rfl
    · exact ih (k + 1) h hh2

/-- Tech-stack entries all carry low confidence. -/
theorem techMatches_conf (ts : List String) (tbl : List TechPattern) :
    ∀ k, ∀ h ∈ techMatches ts k tbl, h.confidence = "low" := by
  induction tbl with
  | nil => intro k h hh; simp [techMatches] at hh
  | cons tp rest ih =>
    intro k h hh
    by_cases hc : ts.any (fun t => strContains t tp.indicator)
    · rw [techMatches, if_pos hc] at hh
      rcases List.mem_cons.mp hh with rfl | hh2
      · rfl
      · exact ih (k + 1) h hh2
    · rw [techMatches, if_neg hc] at hh
      exact ih k h hh

/-- A constant list is pairwise `≤`-sorted. -/
theorem pairwise_le_of_const {l : List Nat} (a : Nat) (h : ∀ b ∈ l, b = a) :
    l.Pairwise (· ≤ ·) := by
  induction l with
  | nil => exact List.Pairwise.nil
  | cons x xs ih =>
    refine List.Pairwise.cons ?_ (ih fun b hb => h b (List.mem_cons_of_mem _ hb))
    intro b hb
    rw [h x (List.mem_cons_self _ _), h b (List.mem_cons_of_mem _ hb)]

/-- C7: `get_transfer_hypotheses` — (1) returns at most 15 entries; (2) equals
the direct-transfer list (one numbered medium hypothesis per distinct finding
type of other-target patterns, first occurrence of the log winning) followed
by the tech-stack matches, truncated at 15, so direct-transfer entries precede
tech-stack entries; (3) the kept types are pairwise distinct; (4) every kept
pattern comes from another target, has a nonempty type, and is the first of
its type in the filtered log, so the cited source target is the first
occurrence in log order; (5) medium-confidence entries precede low-confidence
ones in the result; (6)-(8) the `idor` scenario: one `idor` pattern from
`a.com` yields exactly one direct-transfer hypothesis citing `a.com`, and a
second distinct `idor` pattern from `c.com` adds no duplicate. -/
theorem C7_get_transfer_hypotheses_spec :
    (∀ (ps : List Pattern) (d : String) (ts : List String),
      (get_transfer_hypotheses ps d ts).length ≤ 15) ∧
    (∀ (ps : List Pattern) (d : String) (ts : List String),
      get_transfer_hypotheses ps d ts =
        (mapNumbered d 0 (keepFirstByType (ps.filter fun p => p.source_domain ≠ d) []) ++
          techMatches (ts.map strToLower)
            (mapNumbered d 0
              (keepFirstByType (ps.filter fun p => p.source_domain ≠ d) [])).length
            TRANSFERABLE_PATTERNS).take 15) ∧
    (∀ (ps : List Pattern) (d : String),
      ((keepFirstByType (ps.filter fun p => p.source_domain ≠ d) []).map
        (fun p => p.finding_type)).Nodup) ∧
    (∀ (ps : List Pattern) (d : String),
      ∀ p ∈ keepFirstByType (ps.filter fun p => p.source_domain ≠ d) [],
        p.source_domain ≠ d ∧ p.finding_type ≠ "" ∧
          (ps.filter fun q => q.source_domain ≠ d).find?
            (fun q => q.finding_type == p.finding_type) = some p) ∧
    (∀ (ps : List Pattern) (d : String) (ts : List String),
      (∀ h ∈ get_transfer_hypotheses ps d ts,
        h.confidence = "medium" ∨ h.confidence = "low") ∧
      ((get_transfer_hypotheses ps d ts).map
        (fun h => if h.confidence = "medium" then (0 : Nat) else 1)).Pairwise
        (· ≤ ·)) ∧
    (get_transfer_hypotheses
      [⟨"a.com", "idor", some "idor", "Change numeric ID in URL path"⟩] "b.com" []
      = [mkDirectHyp "b.com"
          ⟨"a.com", "idor", some "idor", "Change numeric ID in URL path"⟩ 1]) ∧
    ((get_transfer_hypotheses
      [⟨"a.com", "idor", some "idor", "Change numeric ID in URL path"⟩] "b.com" []).map
      (fun h => h.reasoning) = ["Successfully exploited on a.com"]) ∧
    (get_transfer_hypotheses
      [⟨"a.com", "idor", some "idor", "Change numeric ID in URL path"⟩,
       ⟨"c.com", "idor", some "idor", "Other payload"⟩] "b.com" []
      = [mkDirectHyp "b.com"
          ⟨"a.com", "idor", some "idor", "Change numeric ID in URL path"⟩ 1]) := by
  have heq : ∀ (ps : List Pattern) (d : String) (ts : List String),
      get_transfer_hypotheses ps d ts =
        (mapNumbered d 0 (keepFirstByType (ps.filter fun p => p.source_domain ≠ d) []) ++
          techMatches (ts.map strToLower)
            (mapNumbered d 0
              (keepFirstByType (ps.filter fun p => p.source_domain ≠ d) [])).length
            TRANSFERABLE_PATTERNS).take 15 := by
    intro ps d ts
    simp only [get_transfer_hypotheses, directTransfers_eq]
  refine ⟨?_, heq, ?_, ?_, ?_, by rfl, by rfl, by rfl⟩
  · intro ps d ts
    simp only [get_transfer_hypotheses]
    exact List.length_take_le 15 _
  · intro ps d
    exact keepFirstByType_nodup _ []
  · intro ps d p hp
    obtain ⟨h1, _, h3⟩ := keepFirstByType_mem _ [] p hp
    have hmem : p ∈ ps.filter fun q => q.source_domain ≠ d := by
      have := List.find?_some h3
      exact List.mem_of_find?_eq_some h3
    have hsrc : p.source_domain ≠ d := by
      have := (List.mem_filter.mp hmem).2
      simpa using this
    exact ⟨hsrc, h1, h3⟩
  · intro ps d ts
    set A := mapNumbered d 0 (keepFirstByType (ps.filter fun p => p.source_domain ≠ d) [])
      with hA
    set B := techMatches (ts.map strToLower) A.length TRANSFERABLE_PATTERNS with hB
    have hAm : ∀ h ∈ A, h.confidence = "medium" := fun h hh =>
      mapNumbered_conf d _ 0 h hh
    have hBl : ∀ h ∈ B, h.confidence = "low" := fun h hh =>
      techMatches_conf _ _ A.length h hh
    constructor
    · intro h hh
      rw [heq ps d ts] at hh
      have hh2 : h ∈ A ++ B := List.mem_of_mem_take hh
      rcases List.mem_append.mp hh2 with hh3 | hh3
      · exact Or.inl (hAm h hh3)
      · exact Or.inr (hBl h hh3)
    · rw [heq ps d ts, List.map_take]
      apply List.Pairwise.sublist (List.take_sublist 15 _)
      rw [List.map_append]
      apply List.pairwise_append.mpr
      refine ⟨?_, ?_, ?_⟩
      · apply pairwise_le_of_const 0
        intro b hb
        obtain ⟨h, hh, he⟩ := List.mem_map.mp hb
        rw [← he, if_pos (hAm h hh)]
      · apply pairwise_le_of_const 1
        intro b hb
        obtain ⟨h, hh, he⟩ := List.mem_map.mp hb
        rw [← he, if_neg (by rw [hBl h hh]; intro hcontra; exact absurd hcontra (by decide))]
      · intro a ha b hb
        obtain ⟨h, hh, he⟩ := List.mem_map.mp ha
        rw [← he, if_pos (hAm h hh)]
        exact Nat.zero_le _

/-- C7 witness: the first-occurrence property applied to the concrete `idor`
pattern from `a.com` when generating hypotheses for `b.com`. -/
theorem C7_get_transfer_hypotheses_spec_witness :
    (⟨"a.com", "idor", some "idor", "p1"⟩ : Pattern) ∈
      keepFirstByType (([⟨"a.com", "idor", some "idor", "p1"⟩] : List Pattern).filter
        fun p => p.source_domain ≠ "b.com") [] ∧
    ((⟨"a.com", "idor", some "idor", "p1"⟩ : Pattern).source_domain ≠ "b.com" ∧
      (⟨"a.com", "idor", some "idor", "p1"⟩ : Pattern).finding_type ≠ "" ∧
      (([⟨"a.com", "idor", some "idor", "p1"⟩] : List Pattern).filter
        fun q => q.source_domain ≠ "b.com").find?
        (fun q => q.finding_type ==
          (⟨"a.com", "idor", some "idor", "p1"⟩ : Pattern).finding_type) =
        some ⟨"a.com", "idor", some "idor", "p1"⟩) :=
  ⟨by decide,
    C7_get_transfer_hypotheses_spec.2.2.2.1
      [⟨"a.com", "idor", some "idor", "p1"⟩] "b.com"
      ⟨"a.com", "idor", some "idor", "p1"⟩ (by decide)⟩

/-- C2: the validation pipeline is fail-fast — whenever a stage's fail
condition holds (DNS not resolving; HTTP unreachable; the finding URL
answering 404/403/401; the judgment verdict not `CONFIRMED`), the finding is
marked `false_positive` with the failing stage last in the evidence trail and
the stage's reason recorded, no later stage appears in the trail, and the
stage-4 judgment collaborator is not invoked for any earlier-stage failure. -/
theorem C2_validate_fail_fast (f : FindingRec) (env : ValEnv) :
    (dnsPass env = false →
      (validate_finding f env).status = "FALSE_POSITIVE" ∧
      (validate_finding f env).findingStatus = "false_positive" ∧
      (validate_finding f env).reason = some "Domain does not resolve" ∧
      (validate_finding f env).llmInvoked = false ∧
      (validate_finding f env).steps.map (fun s => s.step) = ["dns"]) ∧
    (dnsPass env = true → httpPass env = false →
      (validate_finding f env).status = "FALSE_POSITIVE" ∧
      (validate_finding f env).findingStatus = "false_positive" ∧
      (validate_finding f env).reason =
        some ("Host unreachable (exit " ++ toString env.httpRc ++ ")") ∧
      (validate_finding f env).llmInvoked = false ∧
      (validate_finding f env).steps.map (fun s => s.step) = ["dns", "http"]) ∧
    (dnsPass env = true → httpPass env = true → endpointPass env = false →
      (statusCode env = "404" ∨ statusCode env = "403" ∨ statusCode env = "401") →
      (validate_finding f env).status = "FALSE_POSITIVE" ∧
      (validate_finding f env).findingStatus = "false_positive" ∧
      (validate_finding f env).reason =
        some ("Endpoint returns HTTP " ++ statusCode env) ∧
      (validate_finding f env).llmInvoked = false ∧
      (validate_finding f env).steps.map (fun s => s.step) =
        ["dns", "http", "endpoint"]) ∧
    (dnsPass env = true → httpPass env = true →
      (endpointPass env = true ∨
        (statusCode env ≠ "404" ∧ statusCode env ≠ "403" ∧ statusCode env ≠ "401")) →
      env.verdict.verdict ≠ some "CONFIRMED" →
      (validate_finding f env).status = "FALSE_POSITIVE" ∧
      (validate_finding f env).findingStatus = "false_positive" ∧
      (validate_finding f env).reason =
        some (env.verdict.reasoning.getD "Not confirmed") ∧
      (validate_finding f env).steps.map (fun s => s.step) =
        ["dns", "http", "endpoint", "vuln_proof"]) := by
  refine ⟨?_, ?_, ?_, ?_⟩
  · intro h1
    simp [validate_finding, fail_finding, h1]
  · intro h1 h2
    simp [validate_finding, fail_finding, h1, h2]
  · intro h1 h2 h3 h4
    have hcond : (! endpointPass env &&
        (statusCode env == "404" || statusCode env == "403" ||
          statusCode env == "401")) = true := by
      rcases h4 with h | h | h <;> simp [h3, h]
    simp [validate_finding, fail_finding, h1, h2, hcond]
  · intro h1 h2 h3 h4
    have hcond : (! endpointPass env &&
        (statusCode env == "404" || statusCode env == "403" ||
          statusCode env == "401")) = false := by
      rcases h3 with h | h
      · simp [h]
      · simp [h.1, h.2.1, h.2.2]
    have hv : (env.verdict.verdict == some "CONFIRMED") = false := by
      simpa using h4
    simp [validate_finding, fail_finding, h1, h2, hcond, hv]

/-- C2 witness: each stage's fail-fast behavior exercised on a concrete
environment — an unresolvable domain, a curl exit code 7, a 404 endpoint, and
a `FALSE_POSITIVE` verdict. -/
theorem C2_validate_fail_fast_witness :
    ((validate_finding ⟨"", "", "", "", "", "medium"⟩
        ⟨"", 0, "", "", "", ⟨none, none, none, none, none⟩⟩).llmInvoked = false ∧
      (validate_finding ⟨"", "", "", "", "", "medium"⟩
        ⟨"", 0, "", "", "", ⟨none, none, none, none, none⟩⟩).steps.map
        (fun s => s.step) = ["dns"]) ∧
    ((validate_finding ⟨"", "", "", "", "", "medium"⟩
        ⟨"Address: 1.2.3.4", 7, "", "", "", ⟨none, none, none, none, none⟩⟩).reason =
      some "Host unreachable (exit 7)") ∧
    ((validate_finding ⟨"", "", "", "", "", "medium"⟩
        ⟨"Address: 1.2.3.4", 0, "HTTP", "404", "", ⟨none, none, none, none, none⟩⟩).reason =
      some "Endpoint returns HTTP 404") ∧
    ((validate_finding ⟨"", "", "", "", "", "medium"⟩
        ⟨"Address: 1.2.3.4", 0, "HTTP", "200", "",
          ⟨some "FALSE_POSITIVE", none, some "no proof", none, none⟩⟩).reason =
      some "no proof") := by
  refine ⟨?_, ?_, ?_, ?_⟩
  · have h := (C2_validate_fail_fast ⟨"", "", "", "", "", "medium"⟩
      ⟨"", 0, "", "", "", ⟨none, none, none, none, none⟩⟩).1 (by decide)
    exact ⟨h.2.2.2.1, h.2.2.2.2⟩
  · have h := (C2_validate_fail_fast ⟨"", "", "", "", "", "medium"⟩
      ⟨"Address: 1.2.3.4", 7, "", "", "", ⟨none, none, none, none, none⟩⟩).2.1
      (by decide) (by decide)
    exact h.2.2.1
  · have h := (C2_validate_fail_fast ⟨"", "", "", "", "", "medium"⟩
      ⟨"Address: 1.2.3.4", 0, "HTTP", "404", "", ⟨none, none, none, none, none⟩⟩).2.2.1
      (by decide) (by decide) (by decide) (by decide)
    exact h.2.2.1
  · have h := (C2_validate_fail_fast ⟨"", "", "", "", "", "medium"⟩
      ⟨"Address: 1.2.3.4", 0, "HTTP", "200", "",
        ⟨some "FALSE_POSITIVE", none, some "no proof", none, none⟩⟩).2.2.2
      (by decide) (by decide) (Or.inl (by decide)) (by decide)
    exact h.2.2.1

/-- C8: a finding whose URL answers HTTP 403 while the host's response
headers carry a WAF banner ends `false_positive`: the WAF flag is recorded
(the `http` step is marked FAIL in the evidence trail), the recorded reason
is the blocked `Endpoint returns HTTP 403`, and the stage-4 judgment
collaborator is never invoked. -/
theorem C8_waf_403_false_positive (f : FindingRec) (env : ValEnv)
    (hdns : dnsPass env = true) (hhttp : httpPass env = true)
    (hwaf : check_waf env.httpStdout = true)
    (hcode : statusCode env = "403") :
    (validate_finding f env).status = "FALSE_POSITIVE" ∧
    (validate_finding f env).findingStatus = "false_positive" ∧
    (validate_finding f env).reason = some "Endpoint returns HTTP 403" ∧
    (validate_finding f env).llmInvoked = false ∧
    (validate_finding f env).steps.map (fun s => (s.step, s.result)) =
      [("dns", "PASS"), ("http", "FAIL"), ("endpoint", "FAIL")] := by
  have hep : endpointPass env = false := by
    simp only [endpointPass, hcode, strStartsWith]
    decide
  have hcond : (! endpointPass env &&
      (statusCode env == "404" || statusCode env == "403" ||
        statusCode env == "401")) = true := by
    simp [hep, hcode]
  simp [validate_finding, fail_finding, hdns, hhttp, hwaf, hcond, hcode, hep]

/-- C8 witness: a concrete 403 + cloudflare-banner environment. -/
theorem C8_waf_403_false_positive_witness :
    (validate_finding ⟨"https://x.example.com/a", "idor", "", "", "", "medium"⟩
      ⟨"Address: 93.184.216.34", 0, "HTTP/2 403\nServer: cloudflare", "403", "",
        ⟨none, none, none, none, none⟩⟩).reason =
      some "Endpoint returns HTTP 403" ∧
    (validate_finding ⟨"https://x.example.com/a", "idor", "", "", "", "medium"⟩
      ⟨"Address: 93.184.216.34", 0, "HTTP/2 403\nServer: cloudflare", "403", "",
        ⟨none, none, none, none, none⟩⟩).llmInvoked = false := by
  have h := C8_waf_403_false_positive
    ⟨"https://x.example.com/a", "idor", "", "", "", "medium"⟩
    ⟨"Address: 93.184.216.34", 0, "HTTP/2 403\nServer: cloudflare", "403", "",
      ⟨none, none, none, none, none⟩⟩
    (by decide) (by decide) (by decide) (by decide)
  exact ⟨h.2.2.1, h.2.2.2.1⟩

/-- C10: on a `CONFIRMED` verdict the finding is marked `verified`, and its
severity is overwritten exactly when the verdict's `severity_adjustment`
differs from the string `"none"` — including when the field is absent — with
`adjusted_severity`, falling back to the finding's existing severity when
`adjusted_severity` is also absent. -/
theorem C10_severity_overwrite (f : FindingRec) (env : ValEnv)
    (hdns : dnsPass env = true) (hhttp : httpPass env = true)
    (hpath : endpointPass env = true ∨
      (statusCode env ≠ "404" ∧ statusCode env ≠ "403" ∧ statusCode env ≠ "401"))
    (hconf : env.verdict.verdict = some "CONFIRMED") :
    (validate_finding f env).status = "CONFIRMED" ∧
    (validate_finding f env).findingStatus = "verified" ∧
    (env.verdict.severity_adjustment = some "none" →
      (validate_finding f env).findingSeverity = f.severity) ∧
    (env.verdict.severity_adjustment ≠ some "none" →
      (validate_finding f env).findingSeverity =
        env.verdict.adjusted_severity.getD f.severity) ∧
    (env.verdict.severity_adjustment = none →
      (validate_finding f env).findingSeverity =
        env.verdict.adjusted_severity.getD f.severity) := by
  have hcond : (! endpointPass env &&
      (statusCode env == "404" || statusCode env == "403" ||
        statusCode env == "401")) = false := by
    rcases hpath with h | h
    · simp [h]
    · simp [h.1, h.2.1, h.2.2]
  have hv : (env.verdict.verdict == some "CONFIRMED") = true := by
    simp [hconf]
  refine ⟨?_, ?_, ?_, ?_, ?_⟩
  · simp [validate_finding, hdns, hhttp, hcond, hv]
  · simp [validate_finding, hdns, hhttp, hcond, hv]
  · intro ha
    simp [validate_finding, hdns, hhttp, hcond, hv, ha]
  · intro ha
    have ha2 : (env.verdict.severity_adjustment != some "none") = true := by
      simpa using ha
    simp [validate_finding, hdns, hhttp, hcond, hv, ha2]
  · intro ha
    have ha2 : (env.verdict.severity_adjustment != some "none") = true := by
      simp [ha]
    simp [validate_finding, hdns, hhttp, hcond, hv, ha2]

/-- C10 witness: with `severity_adjustment` absent and `adjusted_severity`
absent the severity falls back to the finding's own (overwrite attempted);
with an `upgrade` adjustment to `high` the severity becomes `high`; with the
exact string `"none"` the severity is untouched. -/
theorem C10_severity_overwrite_witness :
    (validate_finding ⟨"", "", "", "", "", "medium"⟩
      ⟨"Address: 1.2.3.4", 0, "HTTP", "200", "",
        ⟨some "CONFIRMED", none, none, none, none⟩⟩).findingSeverity =
      (Option.getD (none : Option String) "medium") ∧
    (validate_finding ⟨"", "", "", "", "", "medium"⟩
      ⟨"Address: 1.2.3.4", 0, "HTTP", "200", "",
        ⟨some "CONFIRMED", none, none, some "upgrade", some "high"⟩⟩).findingSeverity =
      (Option.getD (some "high") "medium") ∧
    (validate_finding ⟨"", "", "", "", "", "medium"⟩
      ⟨"Address: 1.2.3.4", 0, "HTTP", "200", "",
        ⟨some "CONFIRMED", none, none, some "none", some "low"⟩⟩).findingSeverity =
      "medium" := by
  refine ⟨?_, ?_, ?_⟩
  · exact (C10_severity_overwrite ⟨"", "", "", "", "", "medium"⟩
      ⟨"Address: 1.2.3.4", 0, "HTTP", "200", "",
        ⟨some "CONFIRMED", none, none, none, none⟩⟩
      (by decide) (by decide) (Or.inl (by decide)) (by decide)).2.2.2.2 (by decide)
  · exact (C10_severity_overwrite ⟨"", "", "", "", "", "medium"⟩
      ⟨"Address: 1.2.3.4", 0, "HTTP", "200", "",
        ⟨some "CONFIRMED", none, none, some "upgrade", some "high"⟩⟩
      (by decide) (by decide) (Or.inl (by decide)) (by decide)).2.2.2.1 (by decide)
  · exact (C10_severity_overwrite ⟨"", "", "", "", "", "medium"⟩
      ⟨"Address: 1.2.3.4", 0, "HTTP", "200", "",
        ⟨some "CONFIRMED", none, none, some "none", some "low"⟩⟩
      (by decide) (by decide) (Or.inl (by decide)) (by decide)).2.2.1 (by decide)

/-- C9 counterexample: the reply `"\x7bx\x7d [0]"` is not valid JSON but
contains the well-formed bracketed JSON substring `"[0]"`; `chat_json` does
not recover it — it slices from the first brace to the last brace, fails to
parse `"\x7bx\x7d"`, and the decode error propagates.  So `chat_json` does
not extract the first well-formed bracketed JSON substring before giving
up. -/
theorem C9_bracket_recovery_cex :
    loads "\x7bx\x7d [0]" = none ∧
    "\x7bx\x7d [0]" = "\x7bx\x7d " ++ "[0]" ∧
    loads "[0]" = some (JVal.arr [JVal.num 0]) ∧
    chat_json "\x7bx\x7d [0]" = Except.error "json.decoder.JSONDecodeError" :=
  ⟨rfl, rfl, rfl, rfl⟩

/-- C9 (amended): on a reply that is not valid JSON, `chat_json` attempts
exactly one recovery — the span from the first `\x7b` to the last `\x7d`,
or, when no such span exists, from the first `[` to the last `]` — and
returns that span's parse; a decode failure of the attempted span (or the
absence of any span) surfaces as the raised decode error, never as a silent
`None`, even when some other well-formed bracketed substring exists. -/
theorem C9_chat_json_amended (raw : String) :
    (∀ v, loads raw = some v → chat_json raw = .ok v) ∧
    (loads raw = none →
      (pyFind raw '{' ≥ 0 ∧ pyRFind raw '}' + 1 > pyFind raw '{' →
        chat_json raw =
          loadsExc (loads (pySlice raw (pyFind raw '{') (pyRFind raw '}' + 1)))) ∧
      (¬ (pyFind raw '{' ≥ 0 ∧ pyRFind raw '}' + 1 > pyFind raw '{') →
        (pyFind raw '[' ≥ 0 ∧ pyRFind raw ']' + 1 > pyFind raw '[' →
          chat_json raw =
            loadsExc (loads (pySlice raw (pyFind raw '[') (pyRFind raw ']' + 1)))) ∧
        (¬ (pyFind raw '[' ≥ 0 ∧ pyRFind raw ']' + 1 > pyFind raw '[') →
          chat_json raw = .error "json.decoder.JSONDecodeError"))) ∧
    (∀ e, chat_json raw = .error e → loads raw = none) := by
  cases hl : loads raw with
  | some v0 =>
    refine ⟨?_, ?_, ?_⟩
    · intro v hv
      injection hv with hv2
      rw [← hv2]
      simp [chat_json, hl]
    · intro h
      exact Option.noConfusion h
    · intro e he
      simp [chat_json, hl] at he
  | none =>
    refine ⟨?_, ?_, ?_⟩
    · intro v hv
      exact Option.noConfusion hv
    · intro _
      constructor
      · intro hb
        simp only [chat_json, hl]
        rw [if_pos hb]
      · intro hb
        constructor
        · intro hb2
          simp only [chat_json, hl]
          rw [if_neg hb, if_pos hb2]
        · intro hb2
          simp only [chat_json, hl]
          rw [if_neg hb, if_neg hb2]
    · intro e _
      rfl

/-- C9 witness: the amended recovery behavior at concrete replies — a brace
span that parses, a bracket span that parses, and a reply with no span at
all. -/
theorem C9_chat_json_amended_witness :
    chat_json "reply: \x7b\"a\": 1\x7d end" =
      loadsExc (loads (pySlice "reply: \x7b\"a\": 1\x7d end"
        (pyFind "reply: \x7b\"a\": 1\x7d end" '{')
        (pyRFind "reply: \x7b\"a\": 1\x7d end" '}' + 1))) ∧
    chat_json "reply: [1, 2] end" =
      loadsExc (loads (pySlice "reply: [1, 2] end"
        (pyFind "reply: [1, 2] end" '[')
        (pyRFind "reply: [1, 2] end" ']' + 1))) ∧
    chat_json "no json here" = .error "json.decoder.JSONDecodeError" := by
  refine ⟨?_, ?_, ?_⟩
  · exact ((C9_chat_json_amended "reply: \x7b\"a\": 1\x7d end").2.1
      (by rfl)).1 (by decide)
  · exact (((C9_chat_json_amended "reply: [1, 2] end").2.1
      (by rfl)).2 (by decide)).1 (by decide)
  · exact (((C9_chat_json_amended "no json here").2.1
      (by rfl)).2 (by decide)).2 (by decide)

/-- The card-testing track emits exactly one test event per card, in order. -/
theorem testCards_trace (env : HuntEnv) (cards : List CardRow) :
    ∀ st, (testCards env cards st).2 = cards.map (fun c => Ev.testEv c.id) := by
  induction cards with
  | nil => intro st; rfl
  | cons c rest ih => intro st; simp [testCards, ih]

/-- The card-testing track does not touch the hunt row, the lock or the
target row. -/
theorem testCards_frame (env : HuntEnv) (cards : List CardRow) :
    ∀ st, (testCards env cards st).1.hunt = st.hunt ∧
      (testCards env cards st).1.locked = st.locked ∧
      (testCards env cards st).1.target = st.target := by
  induction cards with
  | nil => intro st; exact ⟨rfl, rfl, rfl⟩
  | cons c rest ih => intro st; simpa [testCards] using ih _

/-- The card-testing track marks the tested cards by id, in a fold. -/
theorem testCards_cards (env : HuntEnv) (cards : List CardRow) :
    ∀ st, (testCards env cards st).1.cards =
      cards.foldl (fun acc c => markTested c.id acc) st.cards := by
  induction cards with
  | nil => intro st; rfl
  | cons c rest ih => intro st; simp [testCards, ih, List.foldl_cons]

/-- Folding `markTested` over a card list marks every card whose id occurs in
the list. -/
theorem foldl_markTested (cards : List CardRow) :
    ∀ l : List CardRow,
      cards.foldl (fun acc c => markTested c.id acc) l =
        l.map (fun c =>
          if c.id ∈ cards.map (fun d => d.id) then { c with status := "tested" }
          else c) := by
  induction cards with
  | nil =>
    intro l
    simp
  | cons c0 rest ih =>
    intro l
    rw [List.foldl_cons, ih]
    unfold markTested
    rw [List.map_map]
    apply List.map_congr_left
    intro a _
    by_cases h1 : a.id = c0.id
    · simp [h1]
    · by_cases h2 : a.id ∈ rest.map (fun d => d.id) <;>
        simp [Function.comp, h1, h2]

/-- The validation loop emits exactly one validate event per finding. -/
theorem validateAll_trace (env : HuntEnv) (fs : List FindingRow) :
    ∀ st, (validateAll env fs st).2.1 = fs.map (fun f => Ev.validateEv f.id) := by
  induction fs with
  | nil => intro st; rfl
  | cons f rest ih => intro st; simp [validateAll, ih]

/-- The validation loop does not touch the hunt row, the lock, the cards or
the target row. -/
theorem validateAll_frame (env : HuntEnv) (fs : List FindingRow) :
    ∀ st, (validateAll env fs st).1.hunt = st.hunt ∧
      (validateAll env fs st).1.locked = st.locked ∧
      (validateAll env fs st).1.target = st.target := by
  induction fs with
  | nil => intro st; exact ⟨rfl, rfl, rfl⟩
  | cons f rest ih => intro st; simpa [validateAll] using ih _

/-- The reporting loop emits exactly one report event per finding. -/
theorem reportAll_trace (env : HuntEnv) (fs : List FindingRow) :
    ∀ st, (reportAll env fs st).2 = fs.map (fun f => Ev.reportEv f.id) := by
  induction fs with
  | nil => intro st; rfl
  | cons f rest ih =>
    intro st
    by_cases h : env.reportEligible f.id <;> simp [reportAll, h, ih]

/-- The reporting loop does not touch the hunt row, the lock or the target
row. -/
theorem reportAll_frame (env : HuntEnv) (fs : List FindingRow) :
    ∀ st, (reportAll env fs st).1.hunt = st.hunt ∧
      (reportAll env fs st).1.locked = st.locked ∧
      (reportAll env fs st).1.target = st.target := by
  induction fs with
  | nil => intro st; exact ⟨rfl, rfl, rfl⟩
  | cons f rest ih =>
    intro st
    by_cases h : env.reportEligible f.id <;> simpa [reportAll, h] using ih _

/-- Membership in a rank insertion. -/
theorem mem_insertByRank (c x : CardRow) (l : List CardRow) :
    x ∈ insertByRank c l ↔ x = c ∨ x ∈ l := by
  induction l with
  | nil => simp [insertByRank]
  | cons d ds ih =>
    by_cases h : confRank d.confidence ≤ confRank c.confidence
    · simp only [insertByRank, if_pos h, List.mem_cons, ih]
      tauto
    · simp only [insertByRank, if_neg h, List.mem_cons]

/-- The confidence sort preserves membership. -/
theorem mem_sortByRank (x : CardRow) (l : List CardRow) :
    x ∈ sortByRank l ↔ x ∈ l := by
  induction l with
  | nil => simp [sortByRank]
  | cons c cs ih => simp [sortByRank, mem_insertByRank, ih]

/-- Freshly persisted cards are all pending. -/
theorem filter_pending_persist (l : List CardRow) :
    (persistCards l).filter (fun c => c.status = "pending") = persistCards l := by
  apply List.filter_eq_self.mpr
  intro c hc
  obtain ⟨a, _, he⟩ := List.mem_map.mp hc
  rw [← he]
  simp

/-- Marking every card of a list leaves no pending card. -/
theorem filter_pending_mark_all {l : List CardRow} {ids : List Nat}
    (h : ∀ c ∈ l, c.id ∈ ids) :
    (l.map (fun c =>
      if c.id ∈ ids then { c with status := "tested" } else c)).filter
      (fun c => c.status = "pending") = [] := by
  rw [List.filter_eq_nil_iff]
  intro c hc
  obtain ⟨a, ha, he⟩ := List.mem_map.mp hc
  rw [if_pos (h a ha)] at he
  rw [← he]
  simp

/-- Shorthand frame lemmas for rewriting. -/
theorem testCards_hunt (env : HuntEnv) (cards : List CardRow) (st : DBState) :
    (testCards env cards st).1.hunt = st.hunt := (testCards_frame env cards st).1

/-- The card-testing track keeps the lock untouched. -/
theorem testCards_locked (env : HuntEnv) (cards : List CardRow) (st : DBState) :
    (testCards env cards st).1.locked = st.locked :=
  (testCards_frame env cards st).2.1

/-- The validation loop keeps the lock untouched. -/
theorem validateAll_locked (env : HuntEnv) (fs : List FindingRow) (st : DBState) :
    (validateAll env fs st).1.locked = st.locked :=
  (validateAll_frame env fs st).2.1

/-- The reporting loop keeps the lock untouched. -/
theorem reportAll_locked (env : HuntEnv) (fs : List FindingRow) (st : DBState) :
    (reportAll env fs st).1.locked = st.locked :=
  (reportAll_frame env fs st).2.1

/-- The completion phases only append validation events, report events and
the summary/cross-target calls to the trace. -/
theorem finishHunt_trace (env : HuntEnv) (st : DBState) (tr : List Ev) (n : Nat) :
    ∃ fs1 fs2 : List FindingRow,
      (finishHunt env st tr n).2.2 =
        tr ++ fs1.map (fun f => Ev.validateEv f.id) ++
          fs2.map (fun f => Ev.reportEv f.id) ++ [Ev.summaryEv, Ev.crossEv] := by
  unfold finishHunt
  simp only [validateAll_trace, reportAll_trace]
  exact ⟨_, _, rfl⟩

/-- The completion phases return a `complete` result whose `reported` count
is exactly the value written into the target row's `total_findings`, and they
also stamp `last_full_hunt_at`; the lock is untouched. -/
theorem finishHunt_res (env : HuntEnv) (st : DBState) (tr : List Ev) (n : Nat) :
    ∃ vc rep,
      (finishHunt env st tr n).1 = .complete n vc rep ∧
      (finishHunt env st tr n).2.1.target.total_findings = rep ∧
      (finishHunt env st tr n).2.1.target.last_full_hunt_at = some env.now ∧
      (finishHunt env st tr n).2.1.locked = st.locked := by
  refine ⟨_, _, rfl, ?_, ?_, ?_⟩
  · simp [finishHunt]
  · simp [finishHunt]
  · simp [finishHunt, reportAll_locked, validateAll_locked, setHunt]

/-- The sync phase always ends in a `complete` result recording
`len(verified)` into the target's `total_findings` and stamping
`last_full_hunt_at`; the lock is untouched. -/
theorem syncPhase_res (env : HuntEnv) (st : DBState) (tr : List Ev) :
    ∃ tot vc rep,
      (syncPhase env st tr).1 = .complete tot vc rep ∧
      (syncPhase env st tr).2.1.target.total_findings = rep ∧
      (syncPhase env st tr).2.1.target.last_full_hunt_at = some env.now ∧
      (syncPhase env st tr).2.1.locked = st.locked := by
  unfold syncPhase
  by_cases h : st.findings.isEmpty
  · simp only [setHunt, h, if_pos]
    obtain ⟨vc, rep, h1, h2, h3, h4⟩ := finishHunt_res env _ _ _
    refine ⟨_, vc, rep, h1, h2, h3, ?_⟩
    rw [h4, testCards_locked]
  · simp only [setHunt, h, if_neg, Bool.false_eq_true, not_false_eq_true]
    obtain ⟨vc, rep, h1, h2, h3, h4⟩ := finishHunt_res env _ _ _
    exact ⟨_, vc, rep, h1, h2, h3, h4⟩

/-- C4 (amended): when the awaited scan sub-task result is not received
within the 900-second bound, the hunt is aborted — the `TimeoutError` escapes
`run_hunt` and the `finally` block releases the target lock — but the Hunt
record is NOT marked failed: it is left with status `running`, phase
`testing` and no error text, because `run_hunt` has no exception handler that
would update it. -/
theorem C4_timeout_amended (env : HuntEnv) (st : DBState)
    (hr : env.reconError = none) (ht : env.scanTimedOut = true)
    (hl : st.locked = false) :
    (run_hunt env st).1 = .timedOut ∧
    (run_hunt env st).2.1.locked = false ∧
    (run_hunt env st).2.1.hunt = some ⟨"running", "testing", none, none, 0⟩ := by
  simp [run_hunt, huntBody, hl, hr, ht, testCards_hunt, setHunt]

/-- C4 witness: the amended timeout behavior at a concrete environment. -/
theorem C4_timeout_amended_witness :
    (run_hunt envTimedOut stFresh).1 = .timedOut ∧
    (run_hunt envTimedOut stFresh).2.1.locked = false ∧
    (run_hunt envTimedOut stFresh).2.1.hunt =
      some ⟨"running", "testing", none, none, 0⟩ :=
  C4_timeout_amended envTimedOut stFresh (by rfl) (by rfl) (by rfl)

/-- C4 counterexample: on a concrete timed-out hunt, the Hunt record ends
with status `running` (not `failed`) and no error text, refuting the claim
that the Hunt record ends with status `failed` and the error preserved; only
the termination and the lock release hold. -/
theorem C4_timeout_cex :
    (run_hunt envTimedOut stFresh).1 = .timedOut ∧
    (run_hunt envTimedOut stFresh).2.1.hunt.map (fun h => h.status) =
      some "running" ∧
    (run_hunt envTimedOut stFresh).2.1.hunt.map (fun h => h.status) ≠
      some "failed" ∧
    (run_hunt envTimedOut stFresh).2.1.hunt.map (fun h => h.error) = some none ∧
    (run_hunt envTimedOut stFresh).2.1.locked = false := by
  refine ⟨?_, ?_, ?_, ?_, ?_⟩ <;> decide

/-- C5 (amended): every hunt reaching the `complete` terminal state stamps
the Target's `last_full_hunt_at` and OVERWRITES its `total_findings` with the
number of findings verified in this hunt (the `reported` component of the
returned dict) — the previous value is discarded, not added to. -/
theorem C5_total_findings_amended (env : HuntEnv) (st : DBState)
    (hr : env.reconError = none) (hs : env.scanTimedOut = false)
    (hl : st.locked = false) :
    ∃ tot vc rep,
      (run_hunt env st).1 = .complete tot vc rep ∧
      (run_hunt env st).2.1.target.total_findings = rep ∧
      (run_hunt env st).2.1.target.last_full_hunt_at = some env.now := by
  simp only [run_hunt, hl, Bool.false_eq_true, if_false]
  simp only [huntBody, hr, hs, Bool.false_eq_true, if_false]
  obtain ⟨tot, vc, rep, h1, h2, h3, _⟩ := syncPhase_res env _ _
  exact ⟨tot, vc, rep, h1, h2, h3⟩

/-- C5 witness: the amended completion behavior at a concrete hunt with one
verified finding. -/
theorem C5_total_findings_amended_witness :
    (run_hunt envOneFinding stFresh).1 = .complete 1 1 1 ∧
    (run_hunt envOneFinding stFresh).2.1.target.total_findings = 1 ∧
    (run_hunt envOneFinding stFresh).2.1.target.last_full_hunt_at =
      some envOneFinding.now := by
  obtain ⟨tot, vc, rep, h1, h2, h3⟩ :=
    C5_total_findings_amended envOneFinding stFresh (by rfl) (by rfl) (by rfl)
  have he : (run_hunt envOneFinding stFresh).1 = .complete 1 1 1 := by decide
  rw [he] at h1
  injection h1 with e1 e2 e3
  refine ⟨he, ?_, h3⟩
  rw [h2, ← e3]

/-- C5 counterexample: a target with three previously recorded verified
findings completes a hunt with one verified finding; its `total_findings`
afterwards is 1, not 3 + 1 = 4 — the cumulative-count claim fails. -/
theorem C5_total_findings_cex :
    stFresh.target.total_findings = 3 ∧
    (run_hunt envOneFinding stFresh).1 = .complete 1 1 1 ∧
    (run_hunt envOneFinding stFresh).2.1.target.total_findings = 1 ∧
    (run_hunt envOneFinding stFresh).2.1.target.total_findings ≠
      stFresh.target.total_findings + 1 := by
  refine ⟨?_, ?_, ?_, ?_⟩ <;> decide

/-- Test events carry no gap-discovery call. -/
theorem count_gap_testEvs (cs : List CardRow) :
    (cs.map (fun c => Ev.testEv c.id)).count Ev.gapEv = 0 := by
  rw [List.count_eq_zero]
  simp

/-- Validate events carry no gap-discovery call. -/
theorem count_gap_validateEvs (fs : List FindingRow) :
    (fs.map (fun f => Ev.validateEv f.id)).count Ev.gapEv = 0 := by
  rw [List.count_eq_zero]
  simp

/-- Report events carry no gap-discovery call. -/
theorem count_gap_reportEvs (fs : List FindingRow) :
    (fs.map (fun f => Ev.reportEv f.id)).count Ev.gapEv = 0 := by
  rw [List.count_eq_zero]
  simp

/-- Reading the findings count skips test events. -/
theorem firstReadCount_testEvs (cs : List CardRow) (rest : List Ev) :
    firstReadCount (cs.map (fun c => Ev.testEv c.id) ++ rest) =
      firstReadCount rest := by
  induction cs with
  | nil => rfl
  | cons c cs2 ih => simpa [firstReadCount] using ih

/-- Reading the findings count skips validate events. -/
theorem firstReadCount_validateEvs (fs : List FindingRow) (rest : List Ev) :
    firstReadCount (fs.map (fun f => Ev.validateEv f.id) ++ rest) =
      firstReadCount rest := by
  induction fs with
  | nil => rfl
  | cons f fs2 ih => simpa [firstReadCount] using ih

/-- Reading the findings count skips report events. -/
theorem firstReadCount_reportEvs (fs : List FindingRow) (rest : List Ev) :
    firstReadCount (fs.map (fun f => Ev.reportEv f.id) ++ rest) =
      firstReadCount rest := by
  induction fs with
  | nil => rfl
  | cons f fs2 ih => simpa [firstReadCount] using ih

/-- The first findings read after the phase 1-2 trace prefix is whatever
follows it. -/
theorem firstReadCount_pre (cs : List CardRow) (rest : List Ev) :
    firstReadCount (((Ev.reconEv :: Ev.discoveryEv :: Ev.scanDispatchEv ::
      cs.map (fun c => Ev.testEv c.id)) ++ [Ev.scanAwaitEv]) ++ rest) =
      firstReadCount rest := by
  show firstReadCount ((cs.map (fun c => Ev.testEv c.id) ++ [Ev.scanAwaitEv]) ++ rest) =
    firstReadCount rest
  rw [List.append_assoc, firstReadCount_testEvs]
  rfl

/-- The gap-discovery call does not occur in the phase 1-2 trace prefix. -/
theorem gap_notin_pre (cs : List CardRow) :
    Ev.gapEv ∉ ((Ev.reconEv :: Ev.discoveryEv :: Ev.scanDispatchEv ::
      cs.map (fun c => Ev.testEv c.id)) ++ [Ev.scanAwaitEv]) := by
  simp

/-- The gap-discovery call count of the phase 1-2 trace prefix is zero. -/
theorem count_gap_pre (cs : List CardRow) :
    (((Ev.reconEv :: Ev.discoveryEv :: Ev.scanDispatchEv ::
      cs.map (fun c => Ev.testEv c.id)) ++ [Ev.scanAwaitEv])).count Ev.gapEv = 0 := by
  rw [List.count_eq_zero]
  exact gap_notin_pre cs

/-- The gap-discovery call count after the phase 1-2 trace prefix. -/
theorem count_gap_pre_append (cs : List CardRow) (rest : List Ev) :
    ((((Ev.reconEv :: Ev.discoveryEv :: Ev.scanDispatchEv ::
      cs.map (fun c => Ev.testEv c.id)) ++ [Ev.scanAwaitEv])) ++ rest).count
      Ev.gapEv = rest.count Ev.gapEv := by
  rw [List.count_append, count_gap_pre]
  exact Nat.zero_add _

/-- Gap-discovery membership after the phase 1-2 trace prefix. -/
theorem gap_mem_pre_append (cs : List CardRow) (rest : List Ev) :
    Ev.gapEv ∈ ((((Ev.reconEv :: Ev.discoveryEv :: Ev.scanDispatchEv ::
      cs.map (fun c => Ev.testEv c.id)) ++ [Ev.scanAwaitEv])) ++ rest) ↔
      Ev.gapEv ∈ rest := by
  simp

/-- Sync-phase trace when the hunt has zero findings: the zero-row read, the
gap-discovery call, the re-run of the card-testing track on the now-pending
cards, and the re-read, followed by a gap-free tail. -/
theorem syncPhase_trace_gap (env : HuntEnv) (st : DBState) (tr : List Ev)
    (h : st.findings = []) :
    ∃ m s, (syncPhase env st tr).2.2 =
      tr ++ Ev.readFindingsEv 0 :: Ev.gapEv ::
        ((get_pending { st with cards := st.cards ++ persistCards env.gapCards }).map
          (fun c => Ev.testEv c.id) ++ Ev.readFindingsEv m :: s) ∧
      s.count Ev.gapEv = 0 ∧ firstReadCount s = none := by
  unfold syncPhase
  simp only [setHunt, h, List.isEmpty_nil, if_pos, List.length_nil]
  obtain ⟨fs1, fs2, htr⟩ := finishHunt_trace env _ _ _
  rw [htr, testCards_trace]
  simp only [get_pending, List.append_assoc, List.cons_append, List.nil_append,
    List.singleton_append]
  refine ⟨_, _, rfl, ?_, ?_⟩
  · simp [List.count_append, count_gap_validateEvs, count_gap_reportEvs]
  · rw [firstReadCount_validateEvs, firstReadCount_reportEvs]
    rfl

/-- Sync-phase trace when the hunt has findings: the nonzero read followed by
a gap-free, read-free tail. -/
theorem syncPhase_trace_nogap (env : HuntEnv) (st : DBState) (tr : List Ev)
    (h : ¬ st.findings = []) :
    ∃ s, (syncPhase env st tr).2.2 =
      tr ++ Ev.readFindingsEv st.findings.length :: s ∧
      s.count Ev.gapEv = 0 ∧ firstReadCount s = none := by
  unfold syncPhase
  have hemp : st.findings.isEmpty = false := by
    rw [List.isEmpty_eq_false]
    exact h
  simp only [setHunt, hemp, Bool.false_eq_true, if_false]
  obtain ⟨fs1, fs2, htr⟩ := finishHunt_trace env _ _ _
  rw [htr]
  simp only [List.append_assoc, List.cons_append, List.nil_append,
    List.singleton_append]
  refine ⟨_, rfl, ?_, ?_⟩
  · simp [List.count_append, count_gap_validateEvs, count_gap_reportEvs]
  · rw [firstReadCount_validateEvs, firstReadCount_reportEvs]
    rfl

/-- With no pending cards left of its own, a state extended with freshly
persisted gap cards has exactly those as its pending set. -/
theorem get_pending_append_gap (st : DBState) (gap : List CardRow)
    (h : st.cards.filter (fun c => c.status = "pending") = []) :
    get_pending { st with cards := st.cards ++ persistCards gap } =
      sortByRank (persistCards gap) := by
  simp only [get_pending, List.filter_append, h, filter_pending_persist,
    List.nil_append]

/-- After the first-wave card-testing track runs over the pending snapshot of
a state holding exactly the freshly persisted first-wave cards, no pending
card remains. -/
theorem pending_empty_after_test (env : HuntEnv) (fw : List CardRow)
    (st : DBState) (hc : st.cards = persistCards fw) :
    (testCards env (get_pending st) st).1.cards.filter
      (fun c => c.status = "pending") = [] := by
  rw [testCards_cards, foldl_markTested]
  apply filter_pending_mark_all
  intro c hcc
  apply List.mem_map_of_mem
  rw [get_pending, hc, filter_pending_persist, mem_sortByRank]
  rw [hc] at hcc
  exact hcc

/-- The first findings read in the phase 1-2 trace prefix alone: none. -/
theorem firstReadCount_pre_nil (cs : List CardRow) :
    firstReadCount ((Ev.reconEv :: Ev.discoveryEv :: Ev.scanDispatchEv ::
      cs.map (fun c => Ev.testEv c.id)) ++ [Ev.scanAwaitEv]) = none := by
  show firstReadCount (cs.map (fun c => Ev.testEv c.id) ++ [Ev.scanAwaitEv]) = none
  rw [firstReadCount_testEvs]
  rfl

/-- Gap conjuncts at the sync phase, for any state whose own cards hold no
pending entries (all first-wave cards were consumed by the testing track). -/
theorem syncPhase_conjuncts (env : HuntEnv) (st2 : DBState) (cs : List CardRow)
    (hpend : st2.cards.filter (fun c => c.status = "pending") = []) :
    ((syncPhase env st2 ((Ev.reconEv :: Ev.discoveryEv :: Ev.scanDispatchEv ::
        cs.map (fun c => Ev.testEv c.id)) ++ [Ev.scanAwaitEv])).2.2.count
      Ev.gapEv ≤ 1) ∧
    (Ev.gapEv ∈ (syncPhase env st2 ((Ev.reconEv :: Ev.discoveryEv ::
        Ev.scanDispatchEv :: cs.map (fun c => Ev.testEv c.id)) ++
        [Ev.scanAwaitEv])).2.2 ↔
      firstReadCount ((syncPhase env st2 ((Ev.reconEv :: Ev.discoveryEv ::
        Ev.scanDispatchEv :: cs.map (fun c => Ev.testEv c.id)) ++
        [Ev.scanAwaitEv])).2.2) = some 0) ∧
    (Ev.gapEv ∈ (syncPhase env st2 ((Ev.reconEv :: Ev.discoveryEv ::
        Ev.scanDispatchEv :: cs.map (fun c => Ev.testEv c.id)) ++
        [Ev.scanAwaitEv])).2.2 →
      ∃ p m s, (syncPhase env st2 ((Ev.reconEv :: Ev.discoveryEv ::
        Ev.scanDispatchEv :: cs.map (fun c => Ev.testEv c.id)) ++
        [Ev.scanAwaitEv])).2.2 =
        p ++ Ev.readFindingsEv 0 :: Ev.gapEv ::
          ((sortByRank (persistCards env.gapCards)).map (fun c => Ev.testEv c.id) ++
            Ev.readFindingsEv m :: s)) := by
  by_cases hemp : st2.findings = []
  · obtain ⟨m, s, htr, hcnt, _⟩ := syncPhase_trace_gap env st2 _ hemp
    rw [get_pending_append_gap st2 env.gapCards hpend] at htr
    refine ⟨?_, ?_, fun _ => ⟨_, m, s, htr⟩⟩
    · rw [htr, count_gap_pre_append]
      simp [List.count_cons, List.count_append, count_gap_testEvs, hcnt]
    · rw [htr]
      constructor
      · intro _
        rw [firstReadCount_pre]
        rfl
      · intro _
        rw [gap_mem_pre_append]
        simp
  · obtain ⟨s, htr, hcnt, _⟩ := syncPhase_trace_nogap env st2 _ hemp
    have hnz : st2.findings.length ≠ 0 := by
      intro h0
      exact hemp (List.length_eq_zero.mp h0)
    have hnotmem : Ev.gapEv ∉ Ev.readFindingsEv st2.findings.length :: s := by
      intro hmem
      rcases List.mem_cons.mp hmem with h3 | h3
      · exact Ev.noConfusion h3
      · exact absurd h3 (List.count_eq_zero.mp hcnt)
    refine ⟨?_, ?_, ?_⟩
    · rw [htr, count_gap_pre_append]
      simp [List.count_cons, hcnt]
    · rw [htr]
      constructor
      · intro hmem
        rw [gap_mem_pre_append] at hmem
        exact absurd hmem hnotmem
      · intro hread
        rw [firstReadCount_pre] at hread
        have hstep : firstReadCount (Ev.readFindingsEv st2.findings.length :: s) =
            some st2.findings.length := rfl
        rw [hstep] at hread
        injection hread with h4
        exact absurd h4 hnz
    · intro hmem
      rw [htr, gap_mem_pre_append] at hmem
      exact absurd hmem hnotmem

/-- C3: gap-triggered second-wave discovery in `run_hunt` — (a) the gap call
occurs at most once per hunt, even when the second wave also yields nothing;
(b) it occurs if and only if the sync-phase read of this hunt's findings
(the first `FindingDB.get_by_hunt` read of the run) returns zero rows; (c)
when it occurs, the trace continues with the card-testing track re-run on
exactly the newly pending second-wave cards (in confidence order) and only
then re-reads the findings. -/
theorem C3_gap_discovery (env : HuntEnv) (st : DBState)
    (hl : st.locked = false) (hc : st.cards = []) :
    ((run_hunt env st).2.2.count Ev.gapEv ≤ 1) ∧
    (Ev.gapEv ∈ (run_hunt env st).2.2 ↔
      firstReadCount ((run_hunt env st).2.2) = some 0) ∧
    (Ev.gapEv ∈ (run_hunt env st).2.2 →
      ∃ p m s, (run_hunt env st).2.2 =
        p ++ Ev.readFindingsEv 0 :: Ev.gapEv ::
          ((sortByRank (persistCards env.gapCards)).map (fun c => Ev.testEv c.id) ++
            Ev.readFindingsEv m :: s)) := by
  simp only [run_hunt, hl, Bool.false_eq_true, if_false]
  cases hr : env.reconError with
  | some e =>
    simp only [huntBody, hr]
    refine ⟨by simp, ?_, by simp⟩
    simp [firstReadCount]
  | none =>
    by_cases hsc : env.scanTimedOut
    · simp only [huntBody, hr, hsc, if_true, testCards_trace]
      refine ⟨?_, ?_, ?_⟩
      · rw [count_gap_pre]
        omega
      · constructor
        · intro hmem
          exact absurd hmem (gap_notin_pre _)
        · intro hread
          rw [firstReadCount_pre_nil] at hread
          exact Option.noConfusion hread
      · intro hmem
        exact absurd hmem (gap_notin_pre _)
    · have hsc2 : env.scanTimedOut = false := Bool.eq_false_iff.mpr hsc
      simp only [huntBody, hr, hsc2, Bool.false_eq_true, if_false, testCards_trace]
      refine syncPhase_conjuncts env _ _ ?_
      exact pending_empty_after_test env env.firstWaveCards _ (by simp [setHunt, hc])

/-- C3 witness: on a concrete hunt with no findings at all, the gap call
fires exactly once, the sync read returns zero rows, and the trace re-runs
the testing track on the second-wave card before re-reading findings. -/
theorem C3_gap_discovery_witness :
    ((run_hunt envNoFindings stFresh).2.2.count Ev.gapEv ≤ 1) ∧
    Ev.gapEv ∈ (run_hunt envNoFindings stFresh).2.2 ∧
    firstReadCount ((run_hunt envNoFindings stFresh).2.2) = some 0 ∧
    (∃ p m s, (run_hunt envNoFindings stFresh).2.2 =
      p ++ Ev.readFindingsEv 0 :: Ev.gapEv ::
        ((sortByRank (persistCards envNoFindings.gapCards)).map
          (fun c => Ev.testEv c.id) ++ Ev.readFindingsEv m :: s)) := by
  have h := C3_gap_discovery envNoFindings stFresh (by rfl) (by rfl)
  have hmem : Ev.gapEv ∈ (run_hunt envNoFindings stFresh).2.2 := by decide
  exact ⟨h.1, hmem, h.2.1.mp hmem, h.2.2 hmem⟩

end BountyHound
